import Mathlib

/-!
Verification of the `crispybacon/rubble` automation toolkit against its
natural-language specification.

The development shallowly embeds the Python source:

* JSON / Python-dict values (bucket policies, YAML configs, parsed
  CloudFormation templates) become the inductive type `J`; Python dict
  operations (`d.get`, `d[k]`, `k in d`, `d[k] = v`, `del d[k]`) become
  functions on association lists that preserve Python's update-in-place /
  append-at-end ordering.  Operations that can raise in Python are modelled
  in `Except String`, an uncaught exception being an `.error`.
* Python floats are modelled as exact rationals (`ℚ`); `round` is modelled
  as round-half-to-even on rationals, matching Python's `round` on the
  decimal values appearing in the spec (none of the inputs considered sit
  on a representation boundary or a tie).
* Text patching (`update_website.py`) is modelled on `List Char`;
  `str.replace` and the one regex search used by the source are embedded
  directly.
* AWS / filesystem effects are modelled by passing their outcomes in as
  explicit inputs and recording mutating calls in the returned value.
-/

namespace Rubble

/-- Costs dictionary built by `calculate_costs` (`aws_infra_report.py`):
keys `hourly` and `monthly`, each a float or `None`. -/
structure Costs where
  hourly : Option ℚ
  monthly : Option ℚ
deriving DecidableEq

/-- Python `round` helper: round a rational to the nearest integer, ties to
even (Python 3 banker's rounding). -/
def roundHalfEven (q : ℚ) : ℤ :=
  if q - ⌊q⌋ < 1/2 then ⌊q⌋
  else if 1/2 < q - ⌊q⌋ then ⌊q⌋ + 1
  else if ⌊q⌋ % 2 = 0 then ⌊q⌋ else ⌊q⌋ + 1

/-- Python `round(x, nd)` on exact rationals. -/
def pyRound (q : ℚ) (nd : ℕ) : ℚ :=
  (roundHalfEven (q * (10 : ℚ) ^ nd) : ℚ) / (10 : ℚ) ^ nd

/-- Embedding of `calculate_costs` (`aws_infra_report.py` lines 548-563):
`None` yields `{hourly: None, monthly: None}`; otherwise
`hourly = round(spot_price, 4)` and
`monthly = round(spot_price * 24 * 30.44, 2)`. -/
def calculate_costs (spotPrice : Option ℚ) : Costs :=
  match spotPrice with
  | none => { hourly := none, monthly := none }
  | some p => { hourly := some (pyRound p 4), monthly := some (pyRound (p * 24 * 30.44) 2) }

/-- The fields of an instance record read by `generate_report`
(`i['State']`, `i['Costs']['hourly']`, `i['Costs']['monthly']`); the other
fields of the record (id, type, AZ, launch time, tags, spot price) are not
consulted by the summary computation. -/
structure InstanceData where
  state : String
  costs : Costs

/-- Summary block of the report (`report['summary']`). -/
structure ReportSummary where
  total_instances : ℕ
  running_instances : ℕ
  total_hourly_cost : ℚ
  total_monthly_cost : ℚ

/-- Report built by `generate_report` (timestamp is an opaque input). -/
structure Report where
  timestamp : String
  region : String
  instances : List InstanceData
  summary : ReportSummary

/-- Python `sum(...)` over a generator of rationals: a left fold from 0. -/
def pySum (l : List ℚ) : ℚ := l.foldl (· + ·) 0

/-- Python `sum(1 for ...)`: a left fold from 0 counting ones. -/
def pyCount (l : List ℕ) : ℕ := l.foldl (· + ·) 0

/-- Python `x or 0` for an optional cost field: `None` becomes 0 (a stored
0.0 maps to 0 either way). -/
def orZero (o : Option ℚ) : ℚ :=
  match o with
  | none => 0
  | some v => if v = 0 then 0 else v

/-- Embedding of `generate_report` (`aws_infra_report.py` lines 566-580). -/
def generate_report (timestamp region : String) (instancesData : List InstanceData) : Report :=
  { timestamp := timestamp
  , region := region
  , instances := instancesData
  , summary :=
    { total_instances := instancesData.length
    , running_instances :=
        pyCount ((instancesData.filter (fun i => i.state == "running")).map (fun _ => 1))
    , total_hourly_cost :=
        pySum ((instancesData.filter (fun i => i.state != "terminated")).map
          (fun i => orZero i.costs.hourly))
    , total_monthly_cost :=
        pySum ((instancesData.filter (fun i => i.state != "terminated")).map
          (fun i => orZero i.costs.monthly)) } }

theorem length_filter_split (l : List InstanceData) :
    l.length = (l.filter (fun i => i.state == "terminated")).length
      + (l.filter (fun i => i.state != "terminated")).length := by
  induction l with
  | nil => rfl
  | cons hd tl ih =>
    cases h : (hd.state == "terminated") <;>
      simp [List.filter_cons, h, bne, ih] <;> omega

theorem pySum_eq_sum (l : List ℚ) : pySum l = l.sum := by
  simp [pySum, List.sum_eq_foldl]

theorem pyCount_eq_sum (l : List ℕ) : pyCount l = l.sum := by
  simp [pyCount, List.sum_eq_foldl]

theorem orZero_eq_getD (o : Option ℚ) : orZero o = o.getD 0 := by
  cases o with
  | none => rfl
  | some v =>
    by_cases h : v = 0 <;> simp [orZero, h]

/-- C3: for every list of instance records, `generate_report`'s summary has
`total_instances` equal to the length of the whole list (terminated
instances included), while `total_hourly_cost` and `total_monthly_cost` are
the sums of the respective cost fields (null counted as 0) taken only over
the records whose `State` is not `'terminated'`. -/
theorem C3_generate_report_summary (ts region : String) (data : List InstanceData) :
    ((generate_report ts region data).summary.total_instances = data.length
        ∧ (generate_report ts region data).summary.total_instances
          = (data.filter (fun i => i.state == "terminated")).length
            + (data.filter (fun i => i.state != "terminated")).length)
    ∧ (generate_report ts region data).summary.total_hourly_cost
        = ((data.filter (fun i => i.state != "terminated")).map
            (fun i => i.costs.hourly.getD 0)).sum
    ∧ (generate_report ts region data).summary.total_monthly_cost
        = ((data.filter (fun i => i.state != "terminated")).map
            (fun i => i.costs.monthly.getD 0)).sum := by
  refine ⟨⟨rfl, ?_⟩, ?_, ?_⟩
  · exact length_filter_split data
  · simp only [generate_report, pySum_eq_sum]
    congr 1
    apply List.map_congr_left
    intro i _
    exact orZero_eq_getD _
  · simp only [generate_report, pySum_eq_sum]
    congr 1
    apply List.map_congr_left
    intro i _
    exact orZero_eq_getD _

theorem pyRound_monthly_at_01234 : pyRound ((0.1234 : ℚ) * 24 * 30.44) 2 = 90.15 := by
  have h : (0.1234 : ℚ) * 24 * 30.44 * (10 : ℚ) ^ 2 = 90151104 / 10000 := by norm_num
  have hf : ⌊(90151104 / 10000 : ℚ)⌋ = 9015 := by norm_num [Int.floor_eq_iff]
  simp only [pyRound, roundHalfEven, h, hf]
  norm_num

theorem pyRound_hourly_at_01234 : pyRound (0.1234 : ℚ) 4 = 0.1234 := by
  have h : (0.1234 : ℚ) * (10 : ℚ) ^ 4 = 1234 := by norm_num
  have hf : ⌊(1234 : ℚ)⌋ = 1234 := by norm_num
  simp only [pyRound, roundHalfEven, h, hf]
  norm_num

/-- C4 counterexample: the code's formula `round(0.1234 * 24 * 30.44, 2)`
yields 90.15, which is not approximately 90.06 (it does not even lie within
half a cent of it), so the claimed value `monthly ≈ 90.06` is false. -/
theorem C4_counterexample :
    (calculate_costs (some 0.1234)).monthly = some 90.15
      ∧ ¬ |(90.15 : ℚ) - 90.06| < 5 / 1000 := by
  constructor
  · simp only [calculate_costs, pyRound_monthly_at_01234]
  · rw [abs_of_nonneg (by norm_num)]
    norm_num

/-- C4 (amended): `calculate_costs(None)` yields `{hourly: None, monthly:
None}`, and `calculate_costs(0.1234)` yields hourly `0.1234` and monthly
`90.15` (the exact value of `round(0.1234 * 24 * 30.44, 2)`). -/
theorem C4_calculate_costs :
    calculate_costs none = { hourly := none, monthly := none }
      ∧ calculate_costs (some 0.1234)
        = { hourly := some 0.1234, monthly := some 90.15 } := by
  constructor
  · rfl
  · simp only [calculate_costs, pyRound_monthly_at_01234, pyRound_hourly_at_01234]

/-! ## JSON / Python-dict values

Bucket policies, configs and parsed templates are Python dicts built from
JSON/YAML.  `J.obj` keeps fields as an ordered association list, matching
Python dict insertion order; helper functions below mirror the exact dict
operations the source uses, raising (`Except.error`) where Python raises. -/

/-- JSON-ish Python value: string, bool, integer, `None`, list, dict. -/
inductive J where
  | s (v : String)
  | b (v : Bool)
  | i (v : ℤ)
  | null
  | arr (xs : List J)
  | obj (fs : List (String × J))

/-- First binding of a key in a dict's field list (dict keys are unique, so
first is the only one). -/
def jlookup : List (String × J) → String → Option J
  | [], _ => none
  | (k', v) :: rest, k => if k' = k then some v else jlookup rest k

/-- Python `d[k] = v`: overwrite in place if present, else append. -/
def setField : List (String × J) → String → J → List (String × J)
  | [], k, v => [(k, v)]
  | (k', v') :: rest, k, v =>
    if k' = k then (k, v) :: rest else (k', v') :: setField rest k v

/-- Python `del d[k]` on the field list (key assumed present). -/
def delField : List (String × J) → String → List (String × J)
  | [], _ => []
  | (k', v') :: rest, k =>
    if k' = k then rest else (k', v') :: delField rest k

/-- Python substring test `pat in s` for strings as char lists: the
pattern is a prefix of some suffix. -/
def containsSub (s pat : List Char) : Bool :=
  pat.isPrefixOf s
    || (match s with
        | [] => false
        | _ :: rest => containsSub rest pat)

/-- Python `x == t` where `t` is a string: only equal strings compare
equal; any non-string value compares unequal. -/
def jeqStr (j : J) (t : String) : Bool :=
  match j with
  | .s v => v == t
  | _ => false

/-- Python `x == t` for an optional value (`None == t` is `False`). -/
def jeqOptStr (o : Option J) (t : String) : Bool :=
  match o with
  | some j => jeqStr j t
  | none => false

/-- Python `d.get(k)`: `AttributeError` if `d` is not a dict. -/
def jget (j : J) (k : String) : Except String (Option J) :=
  match j with
  | .obj fs => .ok (jlookup fs k)
  | _ => .error "AttributeError"

/-- Python `d.get(k, default)`. -/
def jgetD (j : J) (k : String) (d : J) : Except String J :=
  match jget j k with
  | .error e => .error e
  | .ok (some v) => .ok v
  | .ok none => .ok d

/-- Python `d[k]`: `KeyError` if missing, `TypeError` if `d` is not
indexable by a string. -/
def jindex (j : J) (k : String) : Except String J :=
  match j with
  | .obj fs =>
    match jlookup fs k with
    | some v => .ok v
    | none => .error "KeyError"
  | _ => .error "TypeError"

/-- Python `k in d`: dict key containment, list membership, or substring
test on strings; `TypeError` on other values. -/
def jhasKey (j : J) (k : String) : Except String Bool :=
  match j with
  | .obj fs => .ok (jlookup fs k).isSome
  | .arr xs => .ok (xs.any (fun x => jeqStr x k))
  | .s v => .ok (containsSub v.toList k.toList)
  | _ => .error "TypeError"

/-- Python `d[k] = v`: `TypeError` unless `d` is a dict. -/
def jsetKey (j : J) (k : String) (v : J) : Except String J :=
  match j with
  | .obj fs => .ok (.obj (setField fs k v))
  | _ => .error "TypeError"

/-- Python `del d[k]`: `KeyError` if missing, `TypeError` if not a dict. -/
def jdelKey (j : J) (k : String) : Except String J :=
  match j with
  | .obj fs =>
    match jlookup fs k with
    | some _ => .ok (.obj (delField fs k))
    | none => .error "KeyError"
  | _ => .error "TypeError"

/-! ## `attach_bucket_policy`

Embedding of `attach_bucket_policy` (`aws_infra_report.py` lines 325-510;
`deploy_function.py` lines 384-569 is byte-identical).  The AWS plumbing
is an input: the CloudFront distribution ARN is the already-resolved
`arn` argument, and the outcome of `get_bucket_policy` is the
`existingPolicy : Option J` argument (`none` covers both
`NoSuchBucketPolicy` and any other retrieval failure, after which the
source continues with `existing_policy = None`).  The returned
`AttachRes` records the policy document passed to `put_bucket_policy`
(`none` when the call never happens) and the function's boolean result. -/

/-- Result of `attach_bucket_policy`: the policy handed to
`put_bucket_policy` if the call was made, and the returned boolean. -/
structure AttachRes where
  put : Option J
  ret : Bool

/-- The `Principal.Service == 'cloudfront.amazonaws.com' and Action ==
's3:GetObject' and Resource == 'arn:aws:s3:::<bucket>/*'` test from the
statement loop (lines 386-390), with Python's short-circuit `and`. -/
def isCFStatement (bucket : String) (st : J) : Except String Bool :=
  match jgetD st "Principal" (J.obj []) with
  | .error e => .error e
  | .ok principal =>
    match jget principal "Service" with
    | .error e => .error e
    | .ok service =>
      if jeqOptStr service "cloudfront.amazonaws.com" then
        match jget st "Action" with
        | .error e => .error e
        | .ok action =>
          if jeqOptStr action "s3:GetObject" then
            match jget st "Resource" with
            | .error e => .error e
            | .ok resource =>
              .ok (jeqOptStr resource ("arn:aws:s3:::" ++ bucket ++ "/*"))
          else .ok false
      else .ok false

/-- The already-covered test on one statement (lines 394-411): the ARN is
the `StringEquals` `AWS:SourceArn` value, or a member of the `StringLike`
`AWS:SourceArn` list. -/
def coversArn (arn : String) (st : J) : Except String Bool :=
  match jgetD st "Condition" (J.obj []) with
  | .error e => .error e
  | .ok condition =>
    match jgetD condition "StringEquals" (J.obj []) with
    | .error e => .error e
    | .ok stringEquals =>
      match jget stringEquals "AWS:SourceArn" with
      | .error e => .error e
      | .ok sourceArn =>
        if jeqOptStr sourceArn arn then .ok true
        else
          match jgetD condition "StringLike" (J.obj []) with
          | .error e => .error e
          | .ok stringLike =>
            match jgetD stringLike "AWS:SourceArn" (J.arr []) with
            | .error e => .error e
            | .ok sourceArns =>
              match sourceArns with
              | .arr xs => .ok (xs.any (fun x => jeqStr x arn))
              | _ => .ok false

/-- The `for i, statement in enumerate(...)` loop (lines 386-411): returns
`(cloudfront_already_in_policy, cloudfront_statement_index)`; the index is
set to each matching CloudFront statement in turn and the loop breaks as
soon as one covers the ARN. -/
def scanStatements (bucket arn : String) : List J → ℕ → ℤ → Except String (Bool × ℤ)
  | [], _, idx => .ok (false, idx)
  | st :: rest, pos, idx =>
    match isCFStatement bucket st with
    | .error e => .error e
    | .ok true =>
      match coversArn arn st with
      | .error e => .error e
      | .ok true => .ok (true, (pos : ℤ))
      | .ok false => scanStatements bucket arn rest (pos + 1) (pos : ℤ)
    | .ok false => scanStatements bucket arn rest (pos + 1) idx

/-- Lines 420-431: collect the current ARN(s) from the statement's
condition, deleting the `StringEquals` condition when it held the ARN;
returns the collected list and the (possibly updated) statement. -/
def collectCurrentArns (st : J) : Except String (List J × J) :=
  match jhasKey st "Condition" with
  | .error e => .error e
  | .ok false => .ok ([], st)
  | .ok true =>
    match jindex st "Condition" with
    | .error e => .error e
    | .ok cond =>
      match jhasKey cond "StringEquals" with
      | .error e => .error e
      | .ok true =>
        match jindex cond "StringEquals" with
        | .error e => .error e
        | .ok se =>
          match jhasKey se "AWS:SourceArn" with
          | .error e => .error e
          | .ok true =>
            match jindex se "AWS:SourceArn" with
            | .error e => .error e
            | .ok v =>
              match jdelKey cond "StringEquals" with
              | .error e => .error e
              | .ok cond1 =>
                match jsetKey st "Condition" cond1 with
                | .error e => .error e
                | .ok st1 => .ok ([v], st1)
          | .ok false => collectFromStringLike st cond
      | .ok false => collectFromStringLike st cond
where
  /-- The `elif 'StringLike' in ...` arm (lines 426-430). -/
  collectFromStringLike (st cond : J) : Except String (List J × J) :=
    match jhasKey cond "StringLike" with
    | .error e => .error e
    | .ok true =>
      match jindex cond "StringLike" with
      | .error e => .error e
      | .ok sl =>
        match jhasKey sl "AWS:SourceArn" with
        | .error e => .error e
        | .ok true =>
          match jindex sl "AWS:SourceArn" with
          | .error e => .error e
          | .ok v =>
            match v with
            | .arr xs => .ok (xs, st)
            | other => .ok ([other], st)
        | .ok false => .ok ([], st)
    | .ok false => .ok ([], st)

/-- Lines 415-442: merge the new ARN into the existing CloudFront
statement, upgrading the condition to `StringLike` with a list of ARNs. -/
def mergeArnIntoStatement (arn : String) (st : J) : Except String J :=
  match collectCurrentArns st with
  | .error e => .error e
  | .ok (currentArns, st1) =>
    let arns2 := if currentArns.any (fun x => jeqStr x arn) then currentArns
                 else currentArns ++ [J.s arn]
    match (match jhasKey st1 "Condition" with
           | .error e => (.error e : Except String J)
           | .ok true => .ok st1
           | .ok false => jsetKey st1 "Condition" (J.obj [])) with
    | .error e => .error e
    | .ok st2 =>
      match jindex st2 "Condition" with
      | .error e => .error e
      | .ok cond =>
        match jsetKey cond "StringLike" (J.obj [("AWS:SourceArn", J.arr arns2)]) with
        | .error e => .error e
        | .ok cond2 => jsetKey st2 "Condition" cond2

/-- The fixed new-statement template (lines 447-460). -/
def newStatement (bucket arn : String) : J :=
  J.obj
    [ ("Sid", J.s "AllowCloudFrontServicePrincipal")
    , ("Effect", J.s "Allow")
    , ("Principal", J.obj [("Service", J.s "cloudfront.amazonaws.com")])
    , ("Action", J.s "s3:GetObject")
    , ("Resource", J.s ("arn:aws:s3:::" ++ bucket ++ "/*"))
    , ("Condition", J.obj [("StringEquals", J.obj [("AWS:SourceArn", J.s arn)])]) ]

/-- The fixed fresh-policy template (lines 475-494). -/
def newBucketPolicy (bucket arn : String) : J :=
  J.obj
    [ ("Version", J.s "2008-10-17")
    , ("Id", J.s "PolicyForCloudFrontPrivateContent")
    , ("Statement", J.arr [newStatement bucket arn]) ]

/-- The list iterated by the statement loop:
`existing_policy.get('Statement', [])` (iterating a non-list would fail on
the first element access, which the model reports as an error directly). -/
def getStmtList (policy : J) : Except String (List J) :=
  match jget policy "Statement" with
  | .error e => .error e
  | .ok (some (.arr xs)) => .ok xs
  | .ok (some _) => .error "TypeError"
  | .ok none => .ok []

/-- Lines 381-472: the branch taken when a bucket policy already exists. -/
def attachWithExistingPolicy (bucket arn : String) (policy : J) : Except String AttachRes :=
  match getStmtList policy with
  | .error e => .error e
  | .ok stmts =>
    match scanStatements bucket arn stmts 0 (-1) with
    | .error e => .error e
    | .ok (true, _) => .ok { put := none, ret := true }
    | .ok (false, idx) =>
      if 0 ≤ idx then
        match jindex policy "Statement" with
        | .error e => .error e
        | .ok (.arr xs) =>
          match xs[idx.toNat]? with
          | none => .error "IndexError"
          | some st =>
            match mergeArnIntoStatement arn st with
            | .error e => .error e
            | .ok st' =>
              match jsetKey policy "Statement" (J.arr (xs.set idx.toNat st')) with
              | .error e => .error e
              | .ok policy1 => .ok { put := some policy1, ret := true }
        | .ok _ => .error "TypeError"
      else
        match jindex policy "Statement" with
        | .error e => .error e
        | .ok (.arr xs) =>
          match jsetKey policy "Statement" (J.arr (xs ++ [newStatement bucket arn])) with
          | .error e => .error e
          | .ok policy1 => .ok { put := some policy1, ret := true }
        | .ok _ => .error "AttributeError"

/-- Embedding of `attach_bucket_policy` from the point where the
distribution ARN is known and the existing policy has been fetched: update
or create the policy; any uncaught exception in the body is caught by the
function's top-level handler and turned into `False`. -/
def attach_bucket_policy (bucket arn : String) (existingPolicy : Option J) : AttachRes :=
  match existingPolicy with
  | some policy =>
    match attachWithExistingPolicy bucket arn policy with
    | .ok r => r
    | .error _ => { put := none, ret := false }
  | none => { put := some (newBucketPolicy bucket arn), ret := true }

theorem jlookup_setField_self (fs : List (String × J)) (k : String) (v : J) :
    jlookup (setField fs k v) k = some v := by
  induction fs with
  | nil => simp [setField, jlookup]
  | cons hd tl ih =>
    by_cases h : hd.1 = k <;> simp [setField, jlookup, h, ih]

theorem jlookup_setField_ne (fs : List (String × J)) (k k' : String) (v : J)
    (h : k' ≠ k) : jlookup (setField fs k v) k' = jlookup fs k' := by
  induction fs with
  | nil =>
    simp only [setField, jlookup]
    rw [if_neg (fun hh => h hh.symm)]
  | cons hd tl ih =>
    by_cases h1 : hd.1 = k
    · subst h1
      simp only [setField, if_pos rfl, jlookup]
      rw [if_neg (fun hh => h hh.symm), if_neg (fun hh => h hh.symm)]
    · simp only [setField, if_neg h1, jlookup, ih]

theorem setField_setField (fs : List (String × J)) (k : String) (v w : J) :
    setField (setField fs k v) k w = setField fs k w := by
  induction fs with
  | nil => simp [setField]
  | cons hd tl ih =>
    by_cases h : hd.1 = k <;> simp [setField, h, ih]

theorem scanStatements_append_skip (bucket arn : String) (pre rest : List J)
    (hpre : ∀ t ∈ pre, isCFStatement bucket t = .ok false) :
    ∀ pos idx, scanStatements bucket arn (pre ++ rest) pos idx
      = scanStatements bucket arn rest (pos + pre.length) idx := by
  induction pre with
  | nil => intro pos idx; simp [scanStatements]
  | cons hd tl ih =>
    intro pos idx
    have hhd := hpre hd (by simp)
    have htl : ∀ t ∈ tl, isCFStatement bucket t = .ok false :=
      fun t ht => hpre t (by simp [ht])
    simp only [List.cons_append, scanStatements, hhd, List.append_eq]
    rw [ih htl (pos + 1) idx]
    simp only [List.length_cons]
    congr 1
    omega

theorem scanStatements_allfalse (bucket arn : String) (l : List J)
    (hl : ∀ t ∈ l, isCFStatement bucket t = .ok false) :
    ∀ pos idx, scanStatements bucket arn l pos idx = .ok (false, idx) := by
  induction l with
  | nil => intro pos idx; simp [scanStatements]
  | cons hd tl ih =>
    intro pos idx
    have hhd := hl hd (by simp)
    have htl : ∀ t ∈ tl, isCFStatement bucket t = .ok false :=
      fun t ht => hl t (by simp [ht])
    simp only [scanStatements, hhd]
    exact ih htl (pos + 1) idx

theorem list_set_append_length {α : Type} (pre : List α) (a b : α) (post : List α) :
    (pre ++ a :: post).set pre.length b = pre ++ b :: post := by
  induction pre with
  | nil => simp
  | cons hd tl ih => simp [List.set, ih]

/-- The CloudFront statement shape used in C1's hypotheses: an arbitrary
dict with the CloudFront service principal, the `s3:GetObject` action, the
bucket's object resource, and a `StringEquals` condition holding exactly
one source ARN. -/
theorem isCFStatement_of_fields (bucket : String) (stfs prfs : List (String × J))
    (hpr : jlookup stfs "Principal" = some (J.obj prfs))
    (hsvc : jlookup prfs "Service" = some (J.s "cloudfront.amazonaws.com"))
    (hact : jlookup stfs "Action" = some (J.s "s3:GetObject"))
    (hres : jlookup stfs "Resource" = some (J.s ("arn:aws:s3:::" ++ bucket ++ "/*"))) :
    isCFStatement bucket (J.obj stfs) = .ok true := by
  simp [isCFStatement, jgetD, jget, hpr, hsvc, hact, hres, jeqOptStr, jeqStr]

theorem coversArn_false_of_stringEquals (arn1 arn2 : String)
    (stfs : List (String × J))
    (hcond : jlookup stfs "Condition"
      = some (J.obj [("StringEquals", J.obj [("AWS:SourceArn", J.s arn1)])]))
    (hne : arn1 ≠ arn2) :
    coversArn arn2 (J.obj stfs) = .ok false := by
  simp [coversArn, jgetD, jget, hcond, jlookup, jeqOptStr, jeqStr, hne]

theorem mergeArn_stringEquals (arn1 arn2 : String) (stfs : List (String × J))
    (hcond : jlookup stfs "Condition"
      = some (J.obj [("StringEquals", J.obj [("AWS:SourceArn", J.s arn1)])]))
    (hne : arn1 ≠ arn2) :
    mergeArnIntoStatement arn2 (J.obj stfs)
      = .ok (J.obj (setField stfs "Condition"
          (J.obj [("StringLike", J.obj [("AWS:SourceArn", J.arr [J.s arn1, J.s arn2])])]))) := by
  have h1 : collectCurrentArns (J.obj stfs)
      = .ok ([J.s arn1], J.obj (setField stfs "Condition" (J.obj []))) := by
    simp [collectCurrentArns, jhasKey, jindex, jdelKey, jsetKey, hcond, jlookup, delField]
  simp only [mergeArnIntoStatement, h1]
  have h2 : (List.any [J.s arn1] fun x => jeqStr x arn2) = false := by
    simp [jeqStr, hne]
  simp [h2, jhasKey, jlookup_setField_self, jindex, jsetKey, setField, setField_setField]

/-- C1: starting from a policy whose single CloudFront-principal statement
carries a `StringEquals` condition with exactly one distribution ARN,
attaching a second, distinct ARN produces (and puts) a policy whose
statement list is unchanged except for that one statement; its condition's
`StringEquals` entry is gone and its `StringLike` `AWS:SourceArn` is the
two-element list holding both ARNs, and the statement still satisfies the
CloudFront-principal test while all the other statements still do not. -/
theorem C1_attach_second_arn (bucket arn1 arn2 : String)
    (pfs stfs prfs : List (String × J)) (pre post : List J)
    (hpol : jlookup pfs "Statement" = some (J.arr (pre ++ J.obj stfs :: post)))
    (hpr : jlookup stfs "Principal" = some (J.obj prfs))
    (hsvc : jlookup prfs "Service" = some (J.s "cloudfront.amazonaws.com"))
    (hact : jlookup stfs "Action" = some (J.s "s3:GetObject"))
    (hres : jlookup stfs "Resource" = some (J.s ("arn:aws:s3:::" ++ bucket ++ "/*")))
    (hcond : jlookup stfs "Condition"
      = some (J.obj [("StringEquals", J.obj [("AWS:SourceArn", J.s arn1)])]))
    (hpre : ∀ t ∈ pre, isCFStatement bucket t = .ok false)
    (hpost : ∀ t ∈ post, isCFStatement bucket t = .ok false)
    (hne : arn1 ≠ arn2) :
    attach_bucket_policy bucket arn2 (some (J.obj pfs))
      = { put := some (J.obj (setField pfs "Statement" (J.arr (pre
            ++ J.obj (setField stfs "Condition"
                (J.obj [("StringLike",
                  J.obj [("AWS:SourceArn", J.arr [J.s arn1, J.s arn2])])])) :: post))))
        , ret := true }
    ∧ [J.s arn1, J.s arn2].length = 2
    ∧ J.s arn1 ∈ [J.s arn1, J.s arn2] ∧ J.s arn2 ∈ [J.s arn1, J.s arn2]
    ∧ jlookup [("StringLike", J.obj [("AWS:SourceArn", J.arr [J.s arn1, J.s arn2])])]
        "StringEquals" = none
    ∧ isCFStatement bucket (J.obj (setField stfs "Condition"
        (J.obj [("StringLike", J.obj [("AWS:SourceArn", J.arr [J.s arn1, J.s arn2])])])))
      = .ok true := by
  have hcf : isCFStatement bucket (J.obj stfs) = .ok true :=
    isCFStatement_of_fields bucket stfs prfs hpr hsvc hact hres
  have hcov : coversArn arn2 (J.obj stfs) = .ok false :=
    coversArn_false_of_stringEquals arn1 arn2 stfs hcond hne
  have hmerge := mergeArn_stringEquals arn1 arn2 stfs hcond hne
  have hscan : scanStatements bucket arn2 (pre ++ J.obj stfs :: post) 0 (-1)
      = .ok (false, (pre.length : ℤ)) := by
    rw [scanStatements_append_skip bucket arn2 pre _ hpre 0 (-1)]
    simp only [scanStatements, hcf, hcov]
    rw [scanStatements_allfalse bucket arn2 post hpost]
    norm_num
  refine ⟨?_, rfl, by simp, by simp, by simp [jlookup], ?_⟩
  · simp only [attach_bucket_policy, attachWithExistingPolicy, getStmtList, jget, hpol, hscan]
    have hnonneg : (0 : ℤ) ≤ (pre.length : ℤ) := Int.natCast_nonneg _
    simp only [if_pos hnonneg, jindex, hpol, Int.toNat_natCast]
    rw [List.getElem?_append_right (le_refl pre.length)]
    simp only [Nat.sub_self, List.getElem?_cons_zero, hmerge, jsetKey]
    rw [list_set_append_length]
  · exact isCFStatement_of_fields bucket _ prfs
      (by rw [jlookup_setField_ne _ _ _ _ (by decide)]; exact hpr) hsvc
      (by rw [jlookup_setField_ne _ _ _ _ (by decide)]; exact hact)
      (by rw [jlookup_setField_ne _ _ _ _ (by decide)]; exact hres)

/-- C1 witness: the symbolic theorem applied to a concrete bucket, a
freshly created single-ARN policy, and a distinct second ARN. -/
theorem C1_attach_second_arn_witness :
    attach_bucket_policy "b" "arn2" (some (newBucketPolicy "b" "arn1"))
      = { put := some (J.obj (setField
            [ ("Version", J.s "2008-10-17")
            , ("Id", J.s "PolicyForCloudFrontPrivateContent")
            , ("Statement", J.arr [newStatement "b" "arn1"]) ] "Statement"
            (J.arr ([]
              ++ J.obj (setField
                  [ ("Sid", J.s "AllowCloudFrontServicePrincipal")
                  , ("Effect", J.s "Allow")
                  , ("Principal", J.obj [("Service", J.s "cloudfront.amazonaws.com")])
                  , ("Action", J.s "s3:GetObject")
                  , ("Resource", J.s ("arn:aws:s3:::" ++ "b" ++ "/*"))
                  , ("Condition", J.obj [("StringEquals",
                      J.obj [("AWS:SourceArn", J.s "arn1")])]) ] "Condition"
                  (J.obj [("StringLike",
                    J.obj [("AWS:SourceArn", J.arr [J.s "arn1", J.s "arn2"])])])) :: []))))
        , ret := true } :=
  (C1_attach_second_arn "b" "arn1" "arn2"
    [ ("Version", J.s "2008-10-17")
    , ("Id", J.s "PolicyForCloudFrontPrivateContent")
    , ("Statement", J.arr [newStatement "b" "arn1"]) ]
    [ ("Sid", J.s "AllowCloudFrontServicePrincipal")
    , ("Effect", J.s "Allow")
    , ("Principal", J.obj [("Service", J.s "cloudfront.amazonaws.com")])
    , ("Action", J.s "s3:GetObject")
    , ("Resource", J.s ("arn:aws:s3:::" ++ "b" ++ "/*"))
    , ("Condition", J.obj [("StringEquals", J.obj [("AWS:SourceArn", J.s "arn1")])]) ]
    [("Service", J.s "cloudfront.amazonaws.com")] [] []
    rfl rfl rfl rfl rfl rfl
    (by intro t ht; cases ht) (by intro t ht; cases ht) (by decide)).1

/-- C5: `attach_bucket_policy` is a no-op returning `True` (no
`put_bucket_policy` call, so the stored policy is untouched) exactly when
a bucket policy exists and the statement scan finds a CloudFront-principal
statement already covering the ARN (via `StringEquals` or `StringLike`);
every other outcome either carries a `put_bucket_policy` call or returns
`False`. -/
theorem C5_attach_noop_iff_covered (bucket arn : String) (existing : Option J) :
    attach_bucket_policy bucket arn existing = { put := none, ret := true }
      ↔ ∃ p stmts i, existing = some p
          ∧ getStmtList p = .ok stmts
          ∧ scanStatements bucket arn stmts 0 (-1) = .ok (true, i) := by
  constructor
  · intro h
    cases existing with
    | none => simp [attach_bucket_policy] at h
    | some p =>
      cases hA : attachWithExistingPolicy bucket arn p with
      | error e => simp [attach_bucket_policy, hA] at h
      | ok r =>
        simp only [attach_bucket_policy, hA] at h
        subst h
        rw [attachWithExistingPolicy] at hA
        cases hg : getStmtList p with
        | error e => simp only [hg] at hA; cases hA
        | ok stmts =>
          simp only [hg] at hA
          cases hs : scanStatements bucket arn stmts 0 (-1) with
          | error e => simp only [hs] at hA; cases hA
          | ok bi =>
            obtain ⟨b, idx⟩ := bi
            cases b with
            | true => exact ⟨p, stmts, idx, rfl, hg, hs⟩
            | false =>
              simp only [hs] at hA
              exfalso
              by_cases hidx : 0 ≤ idx
              · rw [if_pos hidx] at hA
                cases hj : jindex p "Statement" with
                | error e => simp only [hj] at hA; cases hA
                | ok jv =>
                  simp only [hj] at hA
                  cases jv with
                  | arr xs =>
                    cases hget : xs[idx.toNat]? with
                    | none => simp only [hget] at hA; cases hA
                    | some st =>
                      simp only [hget] at hA
                      cases hm : mergeArnIntoStatement arn st with
                      | error e => simp only [hm] at hA; cases hA
                      | ok st' =>
                        simp only [hm] at hA
                        cases hset : jsetKey p "Statement" (J.arr (xs.set idx.toNat st')) with
                        | error e => simp only [hset] at hA; cases hA
                        | ok p1 => simp only [hset] at hA; simp at hA
                  | s v => simp at hA
                  | b v => simp at hA
                  | i v => simp at hA
                  | null => simp at hA
                  | obj fs => simp at hA
              · rw [if_neg hidx] at hA
                cases hj : jindex p "Statement" with
                | error e => simp only [hj] at hA; cases hA
                | ok jv =>
                  simp only [hj] at hA
                  cases jv with
                  | arr xs =>
                    cases hset : jsetKey p "Statement"
                        (J.arr (xs ++ [newStatement bucket arn])) with
                    | error e => simp only [hset] at hA; cases hA
                    | ok p1 => simp only [hset] at hA; simp at hA
                  | s v => simp at hA
                  | b v => simp at hA
                  | i v => simp at hA
                  | null => simp at hA
                  | obj fs => simp at hA
  · rintro ⟨p, stmts, i, rfl, hg, hs⟩
    simp [attach_bucket_policy, attachWithExistingPolicy, hg, hs]

/-- C5 witness: a policy whose CloudFront statement already names the ARN
is left untouched and the function reports success. -/
theorem C5_attach_noop_iff_covered_witness :
    attach_bucket_policy "b" "arn1" (some (newBucketPolicy "b" "arn1"))
      = { put := none, ret := true } :=
  (C5_attach_noop_iff_covered "b" "arn1" (some (newBucketPolicy "b" "arn1"))).mpr
    ⟨newBucketPolicy "b" "arn1", [newStatement "b" "arn1"], 0, rfl, rfl, rfl⟩

/-! ## String-valued Python dicts

Tag maps and CloudFormation parameter maps are Python dicts from strings
to strings: ordered association lists with unique keys, built by repeated
insertion (overwrite in place, else append). -/

/-- First binding of a key (dict keys are unique, so first is the only
one). -/
def sLookup : List (String × String) → String → Option String
  | [], _ => none
  | (k', v) :: rest, k => if k' = k then some v else sLookup rest k

/-- Python `d[k] = v`: overwrite in place if present, else append. -/
def sInsert : List (String × String) → String → String → List (String × String)
  | [], k, v => [(k, v)]
  | (k', v') :: rest, k, v =>
    if k' = k then (k, v) :: rest else (k', v') :: sInsert rest k v

/-- A dict built by inserting a list of pairs in order (dict comprehension /
dict construction from items). -/
def sFromPairs (ps : List (String × String)) : List (String × String) :=
  ps.foldl (fun d kv => sInsert d kv.1 kv.2) []

theorem sLookup_sInsert (d : List (String × String)) (k k' v : String) :
    sLookup (sInsert d k v) k' = if k = k' then some v else sLookup d k' := by
  induction d with
  | nil => simp [sInsert, sLookup]
  | cons hd tl ih =>
    by_cases h1 : hd.1 = k
    · subst h1
      simp only [sInsert, if_pos rfl, sLookup]
      by_cases h2 : hd.1 = k' <;> simp [h2]
    · simp only [sInsert, if_neg h1, sLookup, ih]
      by_cases h2 : hd.1 = k'
      · have h3 : ¬ k = k' := fun hh => h1 (by rw [h2, ← hh])
        rw [if_pos h2, if_neg h3, if_pos h2]
      · rw [if_neg h2]
        by_cases h3 : k = k' <;> simp [h3, h2]

theorem sLookup_eq_none_iff (d : List (String × String)) (k : String) :
    sLookup d k = none ↔ k ∉ d.map Prod.fst := by
  induction d with
  | nil => simp [sLookup]
  | cons hd tl ih =>
    simp only [sLookup, List.map_cons, List.mem_cons]
    by_cases h : hd.1 = k
    · subst h
      simp
    · have h' : ¬ k = hd.1 := fun hh => h hh.symm
      simp [h, h', ih]

theorem sInsert_of_not_mem (d : List (String × String)) (k v : String)
    (h : k ∉ d.map Prod.fst) : sInsert d k v = d ++ [(k, v)] := by
  induction d with
  | nil => simp [sInsert]
  | cons hd tl ih =>
    simp only [List.map_cons, List.mem_cons] at h
    push_neg at h
    obtain ⟨ha, hb⟩ := h
    have h1 : ¬ hd.1 = k := fun hh => ha hh.symm
    simp only [sInsert, if_neg h1, List.cons_append]
    rw [ih hb]

theorem foldl_sInsert_append (ps acc : List (String × String))
    (hnd : (ps.map Prod.fst).Nodup)
    (hdisj : ∀ k ∈ ps.map Prod.fst, k ∉ acc.map Prod.fst) :
    ps.foldl (fun d kv => sInsert d kv.1 kv.2) acc = acc ++ ps := by
  induction ps generalizing acc with
  | nil => simp
  | cons hd tl ih =>
    simp only [List.map_cons, List.nodup_cons] at hnd
    have h1 : hd.1 ∉ acc.map Prod.fst := hdisj hd.1 (by simp)
    simp only [List.foldl_cons]
    rw [sInsert_of_not_mem acc hd.1 hd.2 h1, ih (acc ++ [(hd.1, hd.2)]) hnd.2]
    · simp
    · intro k hk
      simp only [List.map_append, List.mem_append]
      push_neg
      refine ⟨fun hc => hdisj k (by simp [hk]) hc, ?_⟩
      simp only [List.map_cons, List.map_nil, List.mem_singleton]
      intro hc
      exact hnd.1 (hc ▸ hk)

theorem sFromPairs_of_nodup (ps : List (String × String))
    (hnd : (ps.map Prod.fst).Nodup) : sFromPairs ps = ps := by
  have := foldl_sInsert_append ps [] hnd (by simp)
  simpa [sFromPairs] using this

/-- Embedding of the tag-map construction in `get_instance_details`
(`aws_infra_report.py` lines 528-540): the instance's `Tags` list becomes
a dict (`{tag['Key']: tag['Value'] for tag in instance['Tags']}`, or `{}`
when the instance has no tags), then each config default tag is added only
when its key is not already present. -/
def get_instance_details_tags (instanceTags : Option (List (String × String)))
    (configTags : Option (List (String × String))) : List (String × String) :=
  let tags0 := match instanceTags with
    | some ts => sFromPairs ts
    | none => []
  match configTags with
  | some cfg => cfg.foldl
      (fun d kv => if (sLookup d kv.1).isSome then d else sInsert d kv.1 kv.2) tags0
  | none => tags0

theorem foldl_defaulting_lookup (cfg : List (String × String)) :
    ∀ (d : List (String × String)) (k : String),
      sLookup (cfg.foldl
        (fun d kv => if (sLookup d kv.1).isSome then d else sInsert d kv.1 kv.2) d) k
      = match sLookup d k with
        | some v => some v
        | none => sLookup cfg k := by
  induction cfg with
  | nil =>
    intro d k
    cases h : sLookup d k <;> simp [sLookup, h]
  | cons hd tl ih =>
    intro d k
    simp only [List.foldl_cons]
    rw [ih]
    by_cases h0 : (sLookup d hd.1).isSome
    · rw [if_pos h0]
      cases h : sLookup d k with
      | some v => simp [sLookup]
      | none =>
        simp only [sLookup]
        by_cases hk : hd.1 = k
        · subst hk
          rw [h] at h0
          cases h0
        · rw [if_neg hk]
    · rw [if_neg h0]
      rw [Option.not_isSome_iff_eq_none] at h0
      cases h : sLookup d k with
      | some v =>
        have hk : hd.1 ≠ k := fun hh => by rw [hh, h] at h0; cases h0
        rw [sLookup_sInsert, if_neg hk, h]
      | none =>
        rw [sLookup_sInsert]
        simp only [sLookup]
        by_cases hk : hd.1 = k <;> simp [hk, h]

/-- C6: in the merged tag map, every key carried by the instance keeps the
instance's value, and a config default value is used exactly for the keys
the instance does not carry (instance tags take precedence). -/
theorem C6_instance_tags_take_precedence
    (instTags cfgTags : List (String × String))
    (hnd : (instTags.map Prod.fst).Nodup) (k : String) :
    (∀ v, sLookup instTags k = some v →
      sLookup (get_instance_details_tags (some instTags) (some cfgTags)) k = some v)
    ∧ (sLookup instTags k = none →
      sLookup (get_instance_details_tags (some instTags) (some cfgTags)) k
        = sLookup cfgTags k) := by
  have hbase : sFromPairs instTags = instTags := sFromPairs_of_nodup instTags hnd
  constructor
  · intro v hv
    simp only [get_instance_details_tags, hbase]
    rw [foldl_defaulting_lookup, hv]
  · intro hv
    simp only [get_instance_details_tags, hbase]
    rw [foldl_defaulting_lookup, hv]

/-- C6 witness: a concrete instance tag map overriding one config default
and inheriting another. -/
theorem C6_instance_tags_take_precedence_witness :
    sLookup (get_instance_details_tags
        (some [("environment", "prod"), ("Name", "web")])
        (some [("organization", "acme"), ("environment", "dev")])) "environment"
      = some "prod"
    ∧ sLookup (get_instance_details_tags
        (some [("environment", "prod"), ("Name", "web")])
        (some [("organization", "acme"), ("environment", "dev")])) "organization"
      = some "acme" :=
  ⟨(C6_instance_tags_take_precedence
      [("environment", "prod"), ("Name", "web")]
      [("organization", "acme"), ("environment", "dev")]
      (by decide) "environment").1 "prod" (by decide),
    by
      rw [(C6_instance_tags_take_precedence
        [("environment", "prod"), ("Name", "web")]
        [("organization", "acme"), ("environment", "dev")]
        (by decide) "organization").2 (by decide)]
      decide⟩

/-- Embedding of the parameter merge in `update_stack_parameters`
(`deploy_function.py` lines 590-625): the current stack parameters become
a dict; the update list takes every current key with its new value when
the key is in `new_parameters` and its current value otherwise, then
appends every `new_parameters` entry whose key is not a current key. -/
def update_stack_parameters_merge (currentParameters newParameters : List (String × String)) :
    List (String × String) :=
  let currentParamsDict := sFromPairs currentParameters
  (currentParamsDict.map (fun kv =>
      match sLookup newParameters kv.1 with
      | some nv => (kv.1, nv)
      | none => kv))
    ++ newParameters.filter (fun kv => (sLookup currentParamsDict kv.1).isNone)

theorem sLookup_append (a b : List (String × String)) (k : String) :
    sLookup (a ++ b) k
      = match sLookup a k with
        | some v => some v
        | none => sLookup b k := by
  induction a with
  | nil => simp [sLookup]
  | cons hd tl ih =>
    by_cases h : hd.1 = k <;> simp [sLookup, h, ih]

theorem substParam_fst (newP : List (String × String)) (kv : String × String) :
    (match sLookup newP kv.1 with
      | some nv => (kv.1, nv)
      | none => kv).1 = kv.1 := by
  cases sLookup newP kv.1 <;> rfl

theorem sLookup_map_subst (cur newP : List (String × String)) (k : String) :
    sLookup (cur.map (fun kv =>
        match sLookup newP kv.1 with
        | some nv => (kv.1, nv)
        | none => kv)) k
      = match sLookup cur k with
        | some v => some ((sLookup newP k).getD v)
        | none => none := by
  induction cur with
  | nil => simp [sLookup]
  | cons hd tl ih =>
    simp only [List.map_cons, sLookup]
    by_cases h : hd.1 = k
    · subst h
      cases hn : sLookup newP hd.1 <;> simp [sLookup, hn]
    · cases hs : sLookup newP hd.1 <;> simp [sLookup, h, ih]

theorem sLookup_filter_none (cur newP : List (String × String)) (k : String)
    (h : (sLookup cur k).isSome) :
    sLookup (newP.filter (fun kv => (sLookup cur kv.1).isNone)) k = none := by
  induction newP with
  | nil => simp [sLookup]
  | cons hd tl ih =>
    by_cases hk : hd.1 = k
    · subst hk
      have : (sLookup cur hd.1).isNone = false := by
        cases hs : sLookup cur hd.1 <;> simp_all
      simp [List.filter_cons, this, ih]
    · cases hf : (sLookup cur hd.1).isNone <;>
        simp [List.filter_cons, hf, sLookup, hk, ih]

theorem sLookup_filter_all (cur newP : List (String × String)) (k : String)
    (h : sLookup cur k = none) :
    sLookup (newP.filter (fun kv => (sLookup cur kv.1).isNone)) k = sLookup newP k := by
  induction newP with
  | nil => simp
  | cons hd tl ih =>
    by_cases hk : hd.1 = k
    · subst hk
      simp [List.filter_cons, h, sLookup]
    · cases hf : (sLookup cur hd.1).isNone <;>
        simp [List.filter_cons, hf, sLookup, hk, ih]

/-- C10: the parameter list sent to `update_stack` carries each key exactly
once; every current key keeps its position with the new value when the key
is among the new parameters and its current value otherwise, and every
new-only key is appended with its new value. -/
theorem C10_update_stack_parameters (cur newP : List (String × String))
    (hnc : (cur.map Prod.fst).Nodup) (hnn : (newP.map Prod.fst).Nodup) :
    ((update_stack_parameters_merge cur newP).map Prod.fst).Nodup
    ∧ ∀ k, sLookup (update_stack_parameters_merge cur newP) k
        = match sLookup cur k with
          | some v => some ((sLookup newP k).getD v)
          | none => sLookup newP k := by
  have hdict : sFromPairs cur = cur := sFromPairs_of_nodup cur hnc
  have hmapfst : (cur.map (fun kv =>
      match sLookup newP kv.1 with
      | some nv => (kv.1, nv)
      | none => kv)).map Prod.fst = cur.map Prod.fst := by
    rw [List.map_map]
    exact List.map_congr_left (fun kv _ => substParam_fst newP kv)
  constructor
  · simp only [update_stack_parameters_merge, hdict, List.map_append]
    refine List.Nodup.append (by rw [hmapfst]; exact hnc) ?_ ?_
    · exact ((List.filter_sublist newP).map Prod.fst).nodup hnn
    · intro k hk1 hk2
      rw [hmapfst] at hk1
      obtain ⟨kv, hkv, hfst⟩ := List.mem_map.mp hk2
      have hp := (List.mem_filter.mp hkv).2
      simp only [Option.isNone_iff_eq_none, decide_eq_true_eq] at hp
      rw [hfst] at hp
      exact (sLookup_eq_none_iff cur k).mp hp hk1
  · intro k
    simp only [update_stack_parameters_merge, hdict]
    rw [sLookup_append, sLookup_map_subst]
    cases hc : sLookup cur k with
    | some v => rfl
    | none => exact sLookup_filter_all cur newP k hc

/-- C10 witness: merging `{B ↦ 9, C ↦ 3}` into current parameters
`[A ↦ 1, B ↦ 2]` keeps `A`, updates `B`, appends `C`, each key once. -/
theorem C10_update_stack_parameters_witness :
    ((update_stack_parameters_merge [("A", "1"), ("B", "2")]
        [("B", "9"), ("C", "3")]).map Prod.fst).Nodup
    ∧ sLookup (update_stack_parameters_merge [("A", "1"), ("B", "2")]
        [("B", "9"), ("C", "3")]) "B" = some "9" := by
  have h := C10_update_stack_parameters [("A", "1"), ("B", "2")]
    [("B", "9"), ("C", "3")] (by decide) (by decide)
  refine ⟨h.1, ?_⟩
  rw [h.2 "B"]
  decide

/-! ## Python `str.replace`

Left-to-right, non-overlapping replacement of every occurrence.  The
worker takes explicit fuel (one unit per consumed character) so that the
function stays structurally recursive and kernel-computable; the wrapper
supplies sufficient fuel and handles Python's empty-pattern semantics
(`'ab'.replace('', 'x') = 'xaxbx'`). -/

/-- Worker for `str.replace`: scans the string, replacing the pattern at
the leftmost positions, non-overlapping.  Fuel bounds the recursion. -/
def pyReplaceFuel : ℕ → List Char → List Char → List Char → List Char
  | 0, _, _, _ => []
  | fuel + 1, s, pat, rep =>
    match s with
    | [] => []
    | c :: rest =>
      if pat.isPrefixOf (c :: rest) then
        rep ++ pyReplaceFuel fuel ((c :: rest).drop pat.length) pat rep
      else c :: pyReplaceFuel fuel rest pat rep

/-- Python `s.replace(pat, rep)`. -/
def pyReplace (s pat rep : List Char) : List Char :=
  if pat = [] then rep ++ (s.map (fun c => c :: rep)).flatten
  else pyReplaceFuel s.length s pat rep

theorem pyReplaceFuel_fuel_irrel (pat rep : List Char) (hp : pat ≠ []) :
    ∀ (f : ℕ) (s : List Char) (g : ℕ), s.length ≤ f → s.length ≤ g →
      pyReplaceFuel f s pat rep = pyReplaceFuel g s pat rep := by
  have hplen : 1 ≤ pat.length := by
    cases pat with
    | nil => exact absurd rfl hp
    | cons c t => simp
  intro f
  induction f with
  | zero =>
    intro s g hf _
    have : s = [] := List.eq_nil_of_length_eq_zero (Nat.le_zero.mp hf)
    subst this
    cases g <;> rfl
  | succ n ih =>
    intro s g hf hg
    cases g with
    | zero =>
      have : s = [] := List.eq_nil_of_length_eq_zero (Nat.le_zero.mp hg)
      subst this
      rfl
    | succ m =>
      cases s with
      | nil => rfl
      | cons c rest =>
        simp only [pyReplaceFuel]
        by_cases hpre : pat.isPrefixOf (c :: rest)
        · rw [if_pos hpre, if_pos hpre]
          congr 1
          refine ih _ m ?_ ?_ <;>
            simp only [List.length_drop, List.length_cons] at * <;> omega
        · rw [if_neg hpre, if_neg hpre]
          congr 1
          refine ih rest m ?_ ?_ <;>
            simp only [List.length_cons] at * <;> omega

theorem pyReplace_nil (pat rep : List Char) (hp : pat ≠ []) :
    pyReplace [] pat rep = [] := by
  simp [pyReplace, hp, pyReplaceFuel]

theorem pyReplace_pos (c : Char) (rest pat rep : List Char) (hp : pat ≠ [])
    (hpre : pat.isPrefixOf (c :: rest) = true) :
    pyReplace (c :: rest) pat rep
      = rep ++ pyReplace ((c :: rest).drop pat.length) pat rep := by
  have hplen : 1 ≤ pat.length := by
    cases pat with
    | nil => exact absurd rfl hp
    | cons c t => simp
  simp only [pyReplace, if_neg hp, List.length_cons, pyReplaceFuel, if_pos hpre]
  congr 1
  refine pyReplaceFuel_fuel_irrel pat rep hp _ _ _ ?_ ?_ <;>
    simp only [List.length_drop, List.length_cons] <;> omega

theorem pyReplace_neg (c : Char) (rest pat rep : List Char) (hp : pat ≠ [])
    (hpre : pat.isPrefixOf (c :: rest) = false) :
    pyReplace (c :: rest) pat rep = c :: pyReplace rest pat rep := by
  simp only [pyReplace, if_neg hp, List.length_cons, pyReplaceFuel, hpre,
    Bool.false_eq_true, if_false]

/-- Number of positions of `s` at which `pat` occurs (occurrences counted
at every index, the spec-side notion used to state "contains exactly
once"). -/
def occCount (s pat : List Char) : ℕ :=
  (if pat.isPrefixOf s then 1 else 0)
    + (match s with
       | [] => 0
       | _ :: rest => occCount rest pat)

theorem containsSub_eq_occCount_ne (s pat : List Char) :
    containsSub s pat = true ↔ occCount s pat ≠ 0 := by
  induction s with
  | nil =>
    simp only [containsSub, occCount]
    cases h : pat.isPrefixOf ([] : List Char) <;> simp [h]
  | cons c rest ih =>
    simp only [containsSub, occCount]
    cases h : pat.isPrefixOf (c :: rest) <;> simp [h, ih]

theorem isPrefixOf_append_of_isPrefixOf (u b pat : List Char)
    (h : pat.isPrefixOf u = true) : pat.isPrefixOf (u ++ b) = true := by
  rw [List.isPrefixOf_iff_prefix] at h ⊢
  exact h.trans (List.prefix_append u b)

theorem occCount_eq_zero_of_append_left (a b pat : List Char) (hp : pat ≠ [])
    (h : occCount (a ++ b) pat = 0) : occCount a pat = 0 := by
  induction a with
  | nil =>
    simp only [occCount]
    cases hpre : pat.isPrefixOf ([] : List Char)
    · simp
    · exact absurd (List.isPrefixOf_iff_prefix.mp hpre) (by simp [hp])
  | cons c rest ih =>
    simp only [List.cons_append, occCount] at h ⊢
    cases hab : pat.isPrefixOf (c :: (rest ++ b)) with
    | true =>
      exfalso
      simp only [hab, if_true] at h
      omega
    | false =>
      simp only [hab, Bool.false_eq_true, if_false, Nat.zero_add] at h
      have hpre : pat.isPrefixOf (c :: rest) = false := by
        cases hpre : pat.isPrefixOf (c :: rest)
        · rfl
        · exfalso
          have hlong := isPrefixOf_append_of_isPrefixOf (c :: rest) b pat hpre
          rw [List.cons_append] at hlong
          rw [hlong] at hab
          cases hab
      simp only [hpre, Bool.false_eq_true, if_false, Nat.zero_add]
      exact ih h

theorem occCount_eq_zero_of_append_right (a b pat : List Char)
    (h : occCount (a ++ b) pat = 0) : occCount b pat = 0 := by
  induction a with
  | nil => simpa using h
  | cons c rest ih =>
    simp only [List.cons_append, occCount] at h
    cases hab : pat.isPrefixOf (c :: (rest ++ b)) with
    | true =>
      simp only [hab, if_true] at h
      omega
    | false =>
      simp only [hab, Bool.false_eq_true, if_false, Nat.zero_add] at h
      exact ih h

/-! ## `update_index_html` (`update_website.py` lines 122-203)

The function locates `index.html`, then performs two guarded literal
replacements on its content and writes the result back.  The content
transformation is embedded below; the file lookup is environment and the
email destination from the config is the optional second argument
(`None` when `config['messaging']['email']['destination']` is absent). -/

/-- The `${ApiEndpoint}` placeholder. -/
def apiPlaceholder : List Char := "${ApiEndpoint}".toList

/-- The `${EmailAddress}` placeholder. -/
def emailPlaceholder : List Char := "${EmailAddress}".toList

/-- Content transformation of `update_index_html` (lines 183-198): replace
`${ApiEndpoint}` when present, then replace `${EmailAddress}` when present
in the updated content and an email destination is configured. -/
def update_index_html_content (content apiEndpoint : List Char)
    (emailDest : Option (List Char)) : List Char :=
  let c1 := if containsSub content apiPlaceholder
    then pyReplace content apiPlaceholder apiEndpoint else content
  match emailDest with
  | some email => if containsSub c1 emailPlaceholder
      then pyReplace c1 emailPlaceholder email else c1
  | none => c1

/-- C7 counterexample: with content `${ApiEndpoint}` and endpoint value
`${ApiEndpoint}!`, the first run yields `${ApiEndpoint}!` and the second
run substitutes again, yielding `${ApiEndpoint}!!` — so the substitution
is not idempotent for every content and endpoint value. -/
theorem C7_counterexample :
    update_index_html_content
        (update_index_html_content "${ApiEndpoint}".toList
          "${ApiEndpoint}!".toList none)
        "${ApiEndpoint}!".toList none
      ≠ update_index_html_content "${ApiEndpoint}".toList
          "${ApiEndpoint}!".toList none := by
  decide

/-- C7 (amended): re-running `update_index_html` with the same endpoint is
a no-op provided the first run's output no longer contains the
`${ApiEndpoint}` placeholder, nor `${EmailAddress}` when an email
destination is configured (both checks the second run performs); without
that proviso a substituted value containing a placeholder is re-replaced. -/
theorem C7_update_index_html_idempotent (content apiEndpoint : List Char)
    (emailDest : Option (List Char))
    (h1 : containsSub (update_index_html_content content apiEndpoint emailDest)
      apiPlaceholder = false)
    (h2 : ∀ e, emailDest = some e →
      containsSub (update_index_html_content content apiEndpoint emailDest)
        emailPlaceholder = false) :
    update_index_html_content
        (update_index_html_content content apiEndpoint emailDest)
      apiEndpoint emailDest
      = update_index_html_content content apiEndpoint emailDest := by
  have fix : ∀ (y api : List Char) (ed : Option (List Char)),
      containsSub y apiPlaceholder = false →
      (∀ e, ed = some e → containsSub y emailPlaceholder = false) →
      update_index_html_content y api ed = y := by
    intro y api ed hy1 hy2
    cases ed with
    | none => simp [update_index_html_content, hy1]
    | some e => simp [update_index_html_content, hy1, hy2 e rfl]
  exact fix _ apiEndpoint emailDest h1 h2

/-- C7 witness: one well-formed content and endpoint for which the second
run is verified byte-identical to the first. -/
theorem C7_update_index_html_idempotent_witness :
    update_index_html_content
        (update_index_html_content "<a href=\"${ApiEndpoint}\">go</a>".toList
          "https://api.example.com/send".toList none)
        "https://api.example.com/send".toList none
      = update_index_html_content "<a href=\"${ApiEndpoint}\">go</a>".toList
          "https://api.example.com/send".toList none :=
  C7_update_index_html_idempotent "<a href=\"${ApiEndpoint}\">go</a>".toList
    "https://api.example.com/send".toList none (by decide)
    (by intro e he; cases he)

/-! ## `add_messaging_to_solution_demos` (`update_website.py` lines 572-687)

The function checks for the distinguishing string, searches for the
Solution Demonstrations section with the regex
`<div class="solutionDemos">\\s*<h2>\\s*Solution Demonstrations\\s*</h2>\\s*<ul>(.*?)</ul>`
(DOTALL), and replaces every occurrence of the captured group with the
group followed by a fixed `<li>` block.  The regex is embedded directly:
each literal chunk starts with a non-whitespace character, so every `\\s*`
is forced to consume exactly the maximal whitespace run, and the lazy
group ends at the first following `</ul>`; the search returns the group of
the leftmost position where this anchored match succeeds. -/

/-- Consume an exact literal, returning the rest of the input. -/
def consumeLit (lit s : List Char) : Option (List Char) :=
  if lit.isPrefixOf s then some (s.drop lit.length) else none

/-- Consume `\\s*` (maximal whitespace run). -/
def skipSpaces (s : List Char) : List Char := s.dropWhile (fun c => c.isWhitespace)

/-- Index of the first occurrence of a pattern, if any. -/
def findIndexOfSub (s pat : List Char) : Option ℕ :=
  if pat.isPrefixOf s then some 0
  else match s with
    | [] => none
    | _ :: rest => (findIndexOfSub rest pat).map (· + 1)

/-- The anchored match of the Solution Demonstrations pattern at the head
of the input, returning the lazy group `(.*?)` between `<ul>` and the
first `</ul>`. -/
def tryMatchSolutionDemosAt (s : List Char) : Option (List Char) :=
  match consumeLit "<div class=\"solutionDemos\">".toList s with
  | none => none
  | some r1 =>
    match consumeLit "<h2>".toList (skipSpaces r1) with
    | none => none
    | some r2 =>
      match consumeLit "Solution Demonstrations".toList (skipSpaces r2) with
      | none => none
      | some r3 =>
        match consumeLit "</h2>".toList (skipSpaces r3) with
        | none => none
        | some r4 =>
          match consumeLit "<ul>".toList (skipSpaces r4) with
          | none => none
          | some r5 =>
            match findIndexOfSub r5 "</ul>".toList with
            | none => none
            | some i => some (r5.take i)

/-- `re.search` of the pattern: the group at the leftmost matching
position. -/
def matchSolutionDemos (s : List Char) : Option (List Char) :=
  match tryMatchSolutionDemosAt s with
  | some g => some g
  | none =>
    match s with
    | [] => none
    | _ :: rest => matchSolutionDemos rest

/-- The fixed `<li>` block inserted for the messaging solution
(`update_website.py` lines 649-671), verbatim. -/
def newSolutionMessaging : List Char :=
  "\n      <li>\n        <div class=\"jobPosition\">\n          <span class=\"bolded\">\n            AWS End User Messaging\n          </span>\n          <span>\n            Amazon SES, PinpointSMSVoice\n          </span>\n        </div>\n        <div class=\"job-content\">\n          <div class=\"projectName bolded\">\n            <span>\n              Contact Form with Email and SMS\n            </span>\n          </div>\n          <div class=\"smallText\">\n            <p>\n              Direct email contact via mailto link, SMS messaging via API Gateway and Lambda, and email contact form with SES.\n            </p>\n          </div>\n        </div>\n      </li>".toList

/-- The distinguishing string checked before inserting. -/
def dispMessaging : List Char := "AWS End User Messaging".toList

/-- Embedding of `add_messaging_to_solution_demos` from the point where
`index.html`'s content has been read: returns the new content and the
function's boolean result (content unchanged when the distinguishing
string is already present or the section is not found). -/
def add_messaging_to_solution_demos (content : List Char) : List Char × Bool :=
  if containsSub content dispMessaging then (content, true)
  else
    match matchSolutionDemos content with
    | none => (content, false)
    | some grp => (pyReplace content grp (grp ++ newSolutionMessaging), true)

set_option maxRecDepth 100000 in
/-- C8 counterexample: a file containing the Solution Demonstrations
section, not containing the distinguishing string, whose captured group
(`Z`) also occurs before the section.  `str.replace` replaces every
occurrence of the group, so two runs leave the distinguishing string
appearing twice, not exactly once. -/
theorem C8_counterexample :
    containsSub
        "Z<div class=\"solutionDemos\"><h2>Solution Demonstrations</h2><ul>Z</ul>".toList
        dispMessaging = false
    ∧ matchSolutionDemos
        "Z<div class=\"solutionDemos\"><h2>Solution Demonstrations</h2><ul>Z</ul>".toList
      = some "Z".toList
    ∧ occCount (add_messaging_to_solution_demos
        (add_messaging_to_solution_demos
          "Z<div class=\"solutionDemos\"><h2>Solution Demonstrations</h2><ul>Z</ul>".toList).1).1
        dispMessaging = 2 := by
  refine ⟨by decide, by decide, by decide⟩

theorem isPrefixOf_append_headBlocked (pat u b : List Char) (ch : Char)
    (hb : b.head? = some ch) (hch : ch ∉ pat) :
    pat.isPrefixOf (u ++ b) = pat.isPrefixOf u := by
  cases hpre : pat.isPrefixOf u with
  | true => exact isPrefixOf_append_of_isPrefixOf u b pat hpre
  | false =>
    cases hfull : pat.isPrefixOf (u ++ b) with
    | false => rfl
    | true =>
      exfalso
      rw [List.isPrefixOf_iff_prefix] at hfull
      by_cases hlen : pat.length ≤ u.length
      · have hu : pat <+: u :=
          List.prefix_of_prefix_length_le hfull (List.prefix_append u b) hlen
        rw [← List.isPrefixOf_iff_prefix] at hu
        rw [hu] at hpre
        cases hpre
      · push_neg at hlen
        have hup : u <+: pat :=
          List.prefix_of_prefix_length_le (List.prefix_append u b) hfull (le_of_lt hlen)
        obtain ⟨pat2, hpat2⟩ := hup
        have hpat2ne : pat2 ≠ [] := by
          intro hnil
          rw [hnil, List.append_nil] at hpat2
          rw [← hpat2] at hlen
          omega
        have hpb : pat2 <+: b := by
          obtain ⟨t, ht⟩ := hfull
          rw [← hpat2, List.append_assoc] at ht
          exact ⟨t, List.append_cancel_left ht⟩
        have hhead : pat2.head? = some ch := by
          obtain ⟨t, ht⟩ := hpb
          rw [← ht] at hb
          cases pat2 with
          | nil => exact absurd rfl hpat2ne
          | cons x xs => simpa using hb
        refine hch ?_
        rw [← hpat2]
        cases pat2 with
        | nil => exact absurd rfl hpat2ne
        | cons x xs =>
          have hx : x = ch := by simpa using hhead
          subst hx
          simp

theorem mem_of_getLast_eq (l : List Char) (ch : Char) (h : l.getLast? = some ch) :
    ch ∈ l := by
  induction l with
  | nil => cases h
  | cons x xs ih =>
    cases hxs : xs with
    | nil =>
      subst hxs
      simp only [List.getLast?_singleton, Option.some.injEq] at h
      simp [h]
    | cons y ys =>
      subst hxs
      rw [List.getLast?_cons_cons] at h
      exact List.mem_cons_of_mem x (ih h)

theorem isPrefixOf_append_lastBlocked (pat u b : List Char) (ch : Char)
    (hu : u.getLast? = some ch) (hch : ch ∉ pat) :
    pat.isPrefixOf (u ++ b) = pat.isPrefixOf u := by
  cases hpre : pat.isPrefixOf u with
  | true => exact isPrefixOf_append_of_isPrefixOf u b pat hpre
  | false =>
    cases hfull : pat.isPrefixOf (u ++ b) with
    | false => rfl
    | true =>
      exfalso
      rw [List.isPrefixOf_iff_prefix] at hfull
      by_cases hlen : pat.length ≤ u.length
      · have hup : pat <+: u :=
          List.prefix_of_prefix_length_le hfull (List.prefix_append u b) hlen
        rw [← List.isPrefixOf_iff_prefix] at hup
        rw [hup] at hpre
        cases hpre
      · push_neg at hlen
        have hup : u <+: pat :=
          List.prefix_of_prefix_length_le (List.prefix_append u b) hfull (le_of_lt hlen)
        exact hch (hup.subset (mem_of_getLast_eq u ch hu))

theorem occCount_nil_of_ne (pat : List Char) (hp : pat ≠ []) :
    occCount [] pat = 0 := by
  simp only [occCount]
  cases hpre : pat.isPrefixOf ([] : List Char)
  · simp
  · exact absurd (List.isPrefixOf_iff_prefix.mp hpre) (by simp [hp])

theorem occCount_append_of_no_span (pat a b : List Char) (hp : pat ≠ [])
    (hspan : ∀ i, i < a.length →
      pat.isPrefixOf ((a ++ b).drop i) = pat.isPrefixOf (a.drop i)) :
    occCount (a ++ b) pat = occCount a pat + occCount b pat := by
  induction a with
  | nil => simp [occCount_nil_of_ne pat hp]
  | cons c rest ih =>
    simp only [List.cons_append, occCount, List.append_eq]
    have h0 := hspan 0 (by simp)
    rw [List.drop_zero, List.drop_zero, List.cons_append] at h0
    simp only [h0]
    have ihh : occCount (rest ++ b) pat = occCount rest pat + occCount b pat := by
      apply ih
      intro i hi
      have hs := hspan (i + 1) (by simpa using Nat.succ_lt_succ hi)
      rw [List.cons_append, List.drop_succ_cons, List.drop_succ_cons] at hs
      exact hs
    rw [ihh, Nat.add_assoc]

theorem occCount_append_headBlocked (pat a b : List Char) (ch : Char)
    (hp : pat ≠ []) (hb : b.head? = some ch) (hch : ch ∉ pat) :
    occCount (a ++ b) pat = occCount a pat + occCount b pat := by
  apply occCount_append_of_no_span pat a b hp
  intro i hi
  rw [List.drop_append_of_le_length (le_of_lt hi)]
  exact isPrefixOf_append_headBlocked pat (a.drop i) b ch hb hch

theorem getLast?_cons_of_ne (c : Char) (rest : List Char) (h : rest ≠ []) :
    (c :: rest).getLast? = rest.getLast? := by
  cases rest with
  | nil => exact absurd rfl h
  | cons y ys => rw [List.getLast?_cons_cons]

theorem getLast?_drop_of_lt (a : List Char) :
    ∀ i, i < a.length → (a.drop i).getLast? = a.getLast? := by
  induction a with
  | nil => intro i hi; simp at hi
  | cons c rest ih =>
    intro i hi
    cases i with
    | zero => rw [List.drop_zero]
    | succ j =>
      rw [List.drop_succ_cons]
      have hj : j < rest.length := by simpa using hi
      rw [ih j hj]
      have hne : rest ≠ [] := by
        intro hrr
        rw [hrr] at hj
        simp at hj
      rw [getLast?_cons_of_ne c rest hne]

theorem occCount_append_lastBlocked (pat a b : List Char) (ch : Char)
    (hp : pat ≠ []) (ha : a.getLast? = some ch) (hch : ch ∉ pat) :
    occCount (a ++ b) pat = occCount a pat + occCount b pat := by
  apply occCount_append_of_no_span pat a b hp
  intro i hi
  rw [List.drop_append_of_le_length (le_of_lt hi)]
  refine isPrefixOf_append_lastBlocked pat (a.drop i) b ch ?_ hch
  rw [getLast?_drop_of_lt a i hi, ha]

theorem occCount_ne_zero_iff (s pat : List Char) :
    occCount s pat ≠ 0 ↔ ∃ i, pat.isPrefixOf (s.drop i) = true := by
  induction s with
  | nil =>
    simp only [occCount, List.drop_nil]
    cases hpre : pat.isPrefixOf ([] : List Char) <;> simp [hpre]
  | cons c rest ih =>
    simp only [occCount]
    cases hpre : pat.isPrefixOf (c :: rest) with
    | true =>
      simp only [hpre, if_pos rfl]
      constructor
      · intro _
        exact ⟨0, by simpa using hpre⟩
      · intro _
        simp
    | false =>
      simp only [Bool.false_eq_true, if_false, Nat.zero_add]
      rw [ih]
      constructor
      · rintro ⟨i, hi⟩
        exact ⟨i + 1, by simpa [List.drop_succ_cons] using hi⟩
      · rintro ⟨i, hi⟩
        cases i with
        | zero =>
          rw [List.drop_zero] at hi
          rw [hi] at hpre
          cases hpre
        | succ j =>
          rw [List.drop_succ_cons] at hi
          exact ⟨j, hi⟩

theorem pyReplace_of_occCount_zero (s pat rep : List Char) (hp : pat ≠ [])
    (h : occCount s pat = 0) : pyReplace s pat rep = s := by
  induction s with
  | nil => exact pyReplace_nil pat rep hp
  | cons c rest ih =>
    have hpre : pat.isPrefixOf (c :: rest) = false := by
      cases hpre : pat.isPrefixOf (c :: rest)
      · rfl
      · exfalso
        simp only [occCount, hpre, if_true] at h
        omega
    have hrest : occCount rest pat = 0 := by
      simp only [occCount, hpre, Bool.false_eq_true, if_false, Nat.zero_add] at h
      exact h
    rw [pyReplace_neg c rest pat rep hp hpre, ih hrest]

theorem pyReplace_pos_ne (s pat rep : List Char) (hp : pat ≠ []) (hs : s ≠ [])
    (hpre : pat.isPrefixOf s = true) :
    pyReplace s pat rep = rep ++ pyReplace (s.drop pat.length) pat rep := by
  cases s with
  | nil => exact absurd rfl hs
  | cons c rest => exact pyReplace_pos c rest pat rep hp hpre

theorem drop_length_add {α : Type} (u v : List α) (i : ℕ) :
    (u ++ v).drop (u.length + i) = v.drop i := by
  induction u with
  | nil => simp
  | cons x xs ih => simp [Nat.succ_add, ih]

theorem pyReplace_unique_occ (pat rep c : List Char) (hp : pat ≠ []) :
    ∀ a : List Char,
      (∀ i, pat.isPrefixOf ((a ++ pat ++ c).drop i) = true → i = a.length) →
      pyReplace (a ++ pat ++ c) pat rep = a ++ rep ++ c := by
  intro a
  induction a with
  | nil =>
    intro hocc
    simp only [List.nil_append]
    have hself : pat.isPrefixOf pat = true := by
      rw [List.isPrefixOf_iff_prefix]
    have hpre : pat.isPrefixOf (pat ++ c) = true :=
      isPrefixOf_append_of_isPrefixOf pat c pat hself
    have hne : pat ++ c ≠ [] := by
      cases pat with
      | nil => exact absurd rfl hp
      | cons x xs => simp
    rw [pyReplace_pos_ne (pat ++ c) pat rep hp hne hpre, List.drop_left]
    have hc : occCount c pat = 0 := by
      by_contra hcon
      obtain ⟨i, hi⟩ := (occCount_ne_zero_iff c pat).mp hcon
      have hdrop : (pat ++ c).drop (pat.length + i) = c.drop i :=
        drop_length_add pat c i
      have := hocc (pat.length + i) (by
        rw [List.nil_append, hdrop]
        exact hi)
      simp only [List.length_nil] at this
      have hplen : 1 ≤ pat.length := by
        cases pat with
        | nil => exact absurd rfl hp
        | cons x xs => simp
      omega
    rw [pyReplace_of_occCount_zero c pat rep hp hc]
  | cons c0 a' ih =>
    intro hocc
    have heq : (c0 :: a') ++ pat ++ c = c0 :: (a' ++ pat ++ c) := by
      simp [List.cons_append]
    have hpre0 : pat.isPrefixOf (c0 :: (a' ++ pat ++ c)) = false := by
      cases hx : pat.isPrefixOf (c0 :: (a' ++ pat ++ c))
      · rfl
      · exfalso
        have := hocc 0 (by rw [heq, List.drop_zero]; exact hx)
        simp only [List.length_cons] at this
        omega
    have hocc' : ∀ i, pat.isPrefixOf ((a' ++ pat ++ c).drop i) = true → i = a'.length := by
      intro i hi
      have := hocc (i + 1) (by rw [heq, List.drop_succ_cons]; exact hi)
      simp only [List.length_cons] at this
      omega
    rw [heq, pyReplace_neg c0 _ pat rep hp hpre0, ih hocc']
    simp [List.cons_append]

set_option maxRecDepth 100000 in
/-- C8 (amended): for every index.html containing a Solution
Demonstrations section and not yet containing the distinguishing string,
and whose captured group text occurs at exactly one position of the file
(the position the regex matched), running
`add_messaging_to_solution_demos` twice yields a file containing the
distinguishing string exactly once, the second run detecting it via the
substring check and making no change; without the single-occurrence
proviso, `str.replace` duplicates the insertion (see the counterexample). -/
theorem C8_add_messaging_twice (content grp a c : List Char)
    (hgrp : grp ≠ [])
    (hmatch : matchSolutionDemos content = some grp)
    (hdecomp : content = a ++ grp ++ c)
    (hocc : ∀ i, i ≤ content.length →
      grp.isPrefixOf (content.drop i) = true → i = a.length)
    (hdisp : occCount content dispMessaging = 0) :
    (add_messaging_to_solution_demos (add_messaging_to_solution_demos content).1).1
        = (add_messaging_to_solution_demos content).1
    ∧ occCount (add_messaging_to_solution_demos content).1 dispMessaging = 1 := by
  have hdne : dispMessaging ≠ [] := by decide
  have hnsne : newSolutionMessaging ≠ [] := by decide
  have hhead : newSolutionMessaging.head? = some '\n' := by decide
  have hlast : newSolutionMessaging.getLast? = some '>' := by decide
  have hocc1 : occCount newSolutionMessaging dispMessaging = 1 := by decide
  have hnl : ('\n' : Char) ∉ dispMessaging := by decide
  have hgt : ('>' : Char) ∉ dispMessaging := by decide
  have hcont : containsSub content dispMessaging = false := by
    cases hcc : containsSub content dispMessaging
    · rfl
    · exact absurd ((containsSub_eq_occCount_ne content dispMessaging).mp hcc)
        (by simp [hdisp])
  have hocc' : ∀ i, grp.isPrefixOf (content.drop i) = true → i = a.length := by
    intro i hi
    by_cases hle : i ≤ content.length
    · exact hocc i hle hi
    · exfalso
      push_neg at hle
      have hnil : content.drop i = [] := List.drop_eq_nil_of_le (le_of_lt hle)
      rw [hnil] at hi
      rw [List.isPrefixOf_iff_prefix] at hi
      exact hgrp (List.prefix_nil.mp hi)
  have hrun1 : (add_messaging_to_solution_demos content).1
      = a ++ (grp ++ newSolutionMessaging) ++ c := by
    simp only [add_messaging_to_solution_demos, hcont, Bool.false_eq_true, if_false, hmatch]
    rw [hdecomp]
    apply pyReplace_unique_occ grp (grp ++ newSolutionMessaging) c hgrp a
    rw [← hdecomp]
    exact hocc'
  have hoccX : occCount (a ++ grp) dispMessaging = 0 :=
    occCount_eq_zero_of_append_left (a ++ grp) c dispMessaging hdne (hdecomp ▸ hdisp)
  have hoccc : occCount c dispMessaging = 0 :=
    occCount_eq_zero_of_append_right (a ++ grp) c dispMessaging (hdecomp ▸ hdisp)
  have hheadNSc : (newSolutionMessaging ++ c).head? = some '\n' := by
    cases hns : newSolutionMessaging with
    | nil => exact absurd hns hnsne
    | cons x xs =>
      rw [hns] at hhead
      simp only [List.head?_cons, Option.some.injEq] at hhead
      simp [hhead]
  have hc1 : occCount (a ++ (grp ++ newSolutionMessaging) ++ c) dispMessaging = 1 := by
    have e1 : a ++ (grp ++ newSolutionMessaging) ++ c
        = (a ++ grp) ++ (newSolutionMessaging ++ c) := by
      simp [List.append_assoc]
    rw [e1]
    rw [occCount_append_headBlocked dispMessaging (a ++ grp)
      (newSolutionMessaging ++ c) '\n' hdne hheadNSc hnl]
    rw [occCount_append_lastBlocked dispMessaging newSolutionMessaging c '>'
      hdne hlast hgt]
    rw [hoccX, hocc1, hoccc]
  have hcontc1 : containsSub (a ++ (grp ++ newSolutionMessaging) ++ c)
      dispMessaging = true := by
    apply (containsSub_eq_occCount_ne _ _).mpr
    rw [hc1]
    simp
  constructor
  · rw [hrun1]
    simp only [add_messaging_to_solution_demos, hcontc1, if_true]
  · rw [hrun1, hc1]

set_option maxRecDepth 100000 in
/-- C8 witness: a section whose `<ul>` holds text occurring nowhere else;
two runs insert the distinguishing string exactly once. -/
theorem C8_add_messaging_twice_witness :
    (add_messaging_to_solution_demos (add_messaging_to_solution_demos
        "<div class=\"solutionDemos\"><h2>Solution Demonstrations</h2><ul>QQ</ul>".toList).1).1
      = (add_messaging_to_solution_demos
        "<div class=\"solutionDemos\"><h2>Solution Demonstrations</h2><ul>QQ</ul>".toList).1
    ∧ occCount (add_messaging_to_solution_demos
        "<div class=\"solutionDemos\"><h2>Solution Demonstrations</h2><ul>QQ</ul>".toList).1
        dispMessaging = 1 :=
  C8_add_messaging_twice
    "<div class=\"solutionDemos\"><h2>Solution Demonstrations</h2><ul>QQ</ul>".toList
    "QQ".toList
    "<div class=\"solutionDemos\"><h2>Solution Demonstrations</h2><ul>".toList
    "</ul>".toList
    (by decide) (by decide) (by decide) (by decide) (by decide)

/-! ## Error-handling shape (C9)

Outcome-level embeddings of the two cited functions.  `save_report`
(`aws_infra_report.py` lines 687-701) has no exception handler: any raise
from `mkdir`/`open`/`json.dump` propagates to the caller.  `load_config`
(lines 44-54) catches `FileNotFoundError` and `yaml.YAMLError` but calls
`sys.exit(1)` in both handlers, and lets any other exception propagate.
The filesystem outcomes are explicit inputs. -/

/-- Outcome of calling a Python function: a returned value, an uncaught
exception propagating to the caller, or a process exit via `sys.exit`. -/
inductive PyResult (α : Type) where
  | ret (a : α)
  | exc (msg : String)
  | exited (code : ℕ)
deriving Repr

/-- Python `os.path.join(dir, file)` for the simple shapes used here. -/
def osPathJoin (dir file : String) : String :=
  if dir = "" then file
  else if dir.endsWith "/" then dir ++ file
  else dir ++ "/" ++ file

/-- Filesystem outcomes for one `save_report` call. -/
structure SaveReportEnv where
  mkdirErr : Option String
  writeErr : Option String
  timestamp : String

/-- Embedding of `save_report`: mkdir, build the timestamped filename,
write the JSON, return the filepath — with no handler in the body. -/
def save_report (outputDir filePrefix : String) (env : SaveReportEnv) : PyResult String :=
  match env.mkdirErr with
  | some e => .exc e
  | none =>
    let filename := filePrefix ++ "_" ++ env.timestamp ++ ".json"
    let filepath := osPathJoin outputDir filename
    match env.writeErr with
    | some e => .exc e
    | none => .ret filepath

/-- Outcome of opening and YAML-parsing the config file. -/
inductive ConfigReadOutcome where
  | parsed (cfg : J)
  | fileNotFound
  | yamlError (msg : String)
  | otherExc (msg : String)

/-- Embedding of `load_config`: return the parsed config; exit with status
1 on `FileNotFoundError` or `yaml.YAMLError`; propagate anything else. -/
def load_config (outcome : ConfigReadOutcome) : PyResult J :=
  match outcome with
  | .parsed cfg => .ret cfg
  | .fileNotFound => .exited 1
  | .yamlError _ => .exited 1
  | .otherExc e => .exc e

/-- C9 counterexample: `save_report` propagates the exception raised when
the report directory cannot be created (no sentinel), and `load_config`
exits the process with status 1 on a missing config file instead of
returning a sentinel — so not every public function catches exceptions
and returns a sentinel. -/
theorem C9_counterexample :
    save_report "reports" "aws_infra_report"
        { mkdirErr := some "FileExistsError", writeErr := none
        , timestamp := "20260101_000000" }
      = .exc "FileExistsError"
    ∧ load_config .fileNotFound = .exited 1 :=
  ⟨rfl, rfl⟩

/-- C9 (amended): `save_report` propagates every exception raised while
creating the directory or writing the file; `load_config` exits the
process with status 1 on a missing or unparseable config and propagates
any other exception; handler-wrapped functions such as
`attach_bucket_policy` instead convert any body exception into their
`False` sentinel. -/
theorem C9_error_handling (outputDir filePrefix ts : String) :
    (∀ e w, save_report outputDir filePrefix
        { mkdirErr := some e, writeErr := w, timestamp := ts } = .exc e)
    ∧ (∀ e, save_report outputDir filePrefix
        { mkdirErr := none, writeErr := some e, timestamp := ts } = .exc e)
    ∧ load_config .fileNotFound = .exited 1
    ∧ (∀ m, load_config (.yamlError m) = .exited 1)
    ∧ (∀ m, load_config (.otherExc m) = .exc m)
    ∧ (∀ bucket arn p e, attachWithExistingPolicy bucket arn p = .error e →
        attach_bucket_policy bucket arn (some p) = { put := none, ret := false }) := by
  refine ⟨fun e w => rfl, fun e => rfl, rfl, fun m => rfl, fun m => rfl, ?_⟩
  intro bucket arn p e he
  simp [attach_bucket_policy, he]

/-- C9 witness: the amended statement instantiated, including a concrete
malformed policy on which `attach_bucket_policy`'s body raises and the
function returns `False` without a put. -/
theorem C9_error_handling_witness :
    save_report "reports" "r"
        { mkdirErr := none, writeErr := some "OSError", timestamp := "t" }
      = .exc "OSError"
    ∧ attach_bucket_policy "b" "arn" (some (J.s "notadict"))
      = { put := none, ret := false } :=
  ⟨(C9_error_handling "reports" "r" "t").2.1 "OSError",
    (C9_error_handling "reports" "r" "t").2.2.2.2.2 "b" "arn" (J.s "notadict")
      "AttributeError" rfl⟩

/-! ## `deploy_cloudformation_template(..., dry_run=True)` (C2)

Embedding of `deploy_function.py` lines 741-839: with `dry_run=True` the
function returns at the dry-run check, so this is exactly the code it can
reach.  No AWS API call site occurs before that return (only the
`boto3.client` constructor on line 759, which performs no API request),
so the embedding's list of mutating AWS calls is empty by construction.
The filesystem is an explicit environment: whether the template file
exists and what parsing its text yields (`none` when the parser raises;
the parse is attempted only for `.yaml`/`.yml`/`.json` paths). -/

/-- The mutating AWS operations named by the claim. -/
inductive AwsCall where
  | createStack
  | updateStack
  | createChangeSet
  | executeChangeSet
  | putBucketPolicy
deriving DecidableEq

/-- The results reachable with `dry_run=True`: the top-level handler's
`{'status': 'error'}` dict or the `{'status': 'dry_run'}` dict carrying
the computed parameter list. -/
inductive DeployResult where
  | errorRes (msg : String)
  | dryRunRes (params : List (String × J))

/-- Filesystem facts for one deploy call. -/
structure DeployEnv where
  templateExists : Bool
  parsedTemplate : Option J

/-- Python truthiness of a JSON value. -/
def jTruthy : J → Bool
  | .s v => v ≠ ""
  | .b v => v
  | .i v => v ≠ 0
  | .null => false
  | .arr xs => ¬ xs.isEmpty
  | .obj fs => ¬ fs.isEmpty

/-- Lines 762-768: parameters from the solution config, skipped when the
config's `parameters` entry is `None` (and `.items()` raising on a
non-dict value). -/
def solutionParams (solutionConfig : J) : Except String (List (String × J)) :=
  match jget solutionConfig "parameters" with
  | .error e => .error e
  | .ok none => .ok []
  | .ok (some J.null) => .ok []
  | .ok (some (J.obj fs)) => .ok fs
  | .ok (some _) => .error "AttributeError"

/-- Python `str.endswith(suffix)` on char lists. -/
def endsWithStr (s suffixStr : String) : Bool :=
  suffixStr.toList.isSuffixOf s.toList

/-- Lines 770-785: whether the `AwsRegion` parameter is appended.  The
template is parsed only for `.yaml`/`.yml`/`.json` paths; any exception
inside the surrounding `try` (a failed parse, or reading `Parameters`
out of a non-dict) merely skips the append. -/
def awsRegionAdded (templatePath : String) (parsedTemplate : Option J) : Bool :=
  if endsWithStr templatePath ".yaml" || endsWithStr templatePath ".yml"
      || endsWithStr templatePath ".json" then
    match parsedTemplate with
    | none => false
    | some td =>
      if jTruthy td then
        match jhasKey td "Parameters" with
        | .error _ => false
        | .ok false => false
        | .ok true =>
          match jindex td "Parameters" with
          | .error _ => false
          | .ok ps =>
            match jhasKey ps "AwsRegion" with
            | .error _ => false
            | .ok b => b
      else false
  else false

/-- One `if '<cfgKey>' in config['tags']: parameters.append(...)` step
(lines 788-803). -/
def tagParamStep (tags : J) (cfgKey paramKey : String)
    (params : List (String × J)) : Except String (List (String × J)) :=
  match jhasKey tags cfgKey with
  | .error e => .error e
  | .ok false => .ok params
  | .ok true =>
    match jindex tags cfgKey with
    | .error e => .error e
    | .ok v => .ok (params ++ [(paramKey, v)])

/-- Lines 787-803: the tag-parameter block. -/
def tagParamsBlock (config : J) (params : List (String × J)) :
    Except String (List (String × J)) :=
  match jhasKey config "tags" with
  | .error e => .error e
  | .ok false => .ok params
  | .ok true =>
    match jindex config "tags" with
    | .error e => .error e
    | .ok tags =>
      match tagParamStep tags "organization" "OrganizationTag" params with
      | .error e => .error e
      | .ok p1 =>
        match tagParamStep tags "business_unit" "BusinessUnitTag" p1 with
        | .error e => .error e
        | .ok p2 => tagParamStep tags "environment" "EnvironmentTag" p2

/-- One nested messaging condition-and-append (lines 807-826). -/
def messagingParamStep (messaging : J) (outerKey innerKey paramKey : String)
    (params : List (String × J)) : Except String (List (String × J)) :=
  match jhasKey messaging outerKey with
  | .error e => .error e
  | .ok false => .ok params
  | .ok true =>
    match jindex messaging outerKey with
    | .error e => .error e
    | .ok inner =>
      match jhasKey inner innerKey with
      | .error e => .error e
      | .ok false => .ok params
      | .ok true =>
        match jindex inner innerKey with
        | .error e => .error e
        | .ok v => .ok (params ++ [(paramKey, v)])

/-- Lines 805-826: messaging parameters, added only when the config has a
`messaging` section and the messaging solution is being deployed. -/
def messagingParamsBlock (solutionName : String) (config : J)
    (params : List (String × J)) : Except String (List (String × J)) :=
  match jhasKey config "messaging" with
  | .error e => .error e
  | .ok false => .ok params
  | .ok true =>
    if solutionName = "messaging" then
      match jindex config "messaging" with
      | .error e => .error e
      | .ok messaging =>
        match messagingParamStep messaging "email" "destination"
            "EmailDestination" params with
        | .error e => .error e
        | .ok p1 =>
          match messagingParamStep messaging "sms" "destination"
              "SmsDestination" p1 with
          | .error e => .error e
          | .ok p2 =>
            match messagingParamStep messaging "sms" "country" "SmsCountry" p2 with
            | .error e => .error e
            | .ok p3 => messagingParamStep messaging "sms" "originator_id"
                "SmsOriginatorId" p3
    else .ok params

/-- The body of `deploy_cloudformation_template` up to the dry-run return
(`deploy_function.py` lines 741-839); an `.error` is an uncaught exception
reaching the top-level handler. -/
def deployDryRunE (solutionName region : String) (config : J)
    (env : DeployEnv) : Except String DeployResult :=
  match jgetD config "solutions" (J.obj []) with
  | .error e => .error e
  | .ok solutions =>
    match jhasKey solutions solutionName with
    | .error e => .error e
    | .ok false =>
      .ok (.errorRes ("Solution '" ++ solutionName ++ "' not found in configuration."))
    | .ok true =>
      match jindex config "solutions" with
      | .error e => .error e
      | .ok sols =>
        match jindex sols solutionName with
        | .error e => .error e
        | .ok solutionConfig =>
          match jget solutionConfig "template_path" with
          | .error e => .error e
          | .ok tpOpt =>
            match tpOpt.getD J.null with
            | J.s templatePath =>
              if templatePath = "" ∨ env.templateExists = false then
                .ok (.errorRes ("Template file '" ++ templatePath ++ "' not found."))
              else
                match solutionParams solutionConfig with
                | .error e => .error e
                | .ok params0 =>
                  let params1 := if awsRegionAdded templatePath env.parsedTemplate
                    then params0 ++ [("AwsRegion", J.s region)] else params0
                  match tagParamsBlock config params1 with
                  | .error e => .error e
                  | .ok params2 =>
                    match messagingParamsBlock solutionName config params2 with
                    | .error e => .error e
                    | .ok params3 => .ok (.dryRunRes params3)
            | other =>
              if jTruthy other then .error "TypeError"
              else .ok (.errorRes "Template file 'None' not found.")

/-- Embedding of `deploy_cloudformation_template(..., dry_run=True)`:
the body's outcome with exceptions folded into the error-status result,
paired with the (empty) list of mutating AWS calls performed. -/
def deploy_cloudformation_template_dry_run (solutionName _stackName region : String)
    (config : J) (env : DeployEnv) : DeployResult × List AwsCall :=
  ((match deployDryRunE solutionName region config env with
    | .ok r => r
    | .error e => .errorRes e), [])

/-- C2 counterexample: two dry runs falsify the claimed equivalence in
both directions.  First, a solution whose configured parameters contain
the literal key `AwsRegion`: the returned list carries an `AwsRegion`
entry although the parsed `.yaml` template declares no `Parameters` at
all.  Second, a template file named `cf.template` whose parsed dict does
declare `AwsRegion`: the extension check skips the parse, so the returned
list has no `AwsRegion` entry. -/
theorem C2_counterexample :
    ((deploy_cloudformation_template_dry_run "sol" "stack" "us-east-1"
        (J.obj [("solutions", J.obj [("sol", J.obj
          [ ("template_path", J.s "iac/sol/template.yaml")
          , ("parameters", J.obj [("AwsRegion", J.s "eu-west-1")]) ])])])
        { templateExists := true
        , parsedTemplate := some (J.obj [("Resources", J.obj [("B", J.obj [])])]) }).1
      = .dryRunRes [("AwsRegion", J.s "eu-west-1")]
      ∧ jlookup [("Resources", J.obj [("B", J.obj [])])] "Parameters" = none)
    ∧ ((deploy_cloudformation_template_dry_run "sol" "stack" "us-east-1"
        (J.obj [("solutions", J.obj [("sol", J.obj
          [("template_path", J.s "iac/sol/cf.template")])])])
        { templateExists := true
        , parsedTemplate := some (J.obj [("Parameters", J.obj
            [("AwsRegion", J.obj [("Type", J.s "String")])])]) }).1
      = .dryRunRes []
      ∧ jlookup [("Parameters", J.obj [("AwsRegion", J.obj [("Type", J.s "String")])])]
          "Parameters"
        = some (J.obj [("AwsRegion", J.obj [("Type", J.s "String")])])) :=
  ⟨⟨rfl, rfl⟩, ⟨rfl, rfl⟩⟩

theorem tagParamStep_mem_iff (tags : J) (cfgKey paramKey : String)
    (params out : List (String × J)) (k0 : String)
    (h : tagParamStep tags cfgKey paramKey params = .ok out) (hk : k0 ≠ paramKey) :
    k0 ∈ out.map Prod.fst ↔ k0 ∈ params.map Prod.fst := by
  rw [tagParamStep] at h
  cases hhas : jhasKey tags cfgKey with
  | error e => simp only [hhas] at h; cases h
  | ok b =>
    cases b with
    | false =>
      simp only [hhas, Except.ok.injEq] at h
      subst h
      rfl
    | true =>
      simp only [hhas] at h
      cases hidx : jindex tags cfgKey with
      | error e => simp only [hidx] at h; cases h
      | ok v =>
        simp only [hidx, Except.ok.injEq] at h
        subst h
        simp [hk]

theorem tagParamsBlock_mem_iff (config : J) (params out : List (String × J))
    (k0 : String) (h : tagParamsBlock config params = .ok out)
    (h1 : k0 ≠ "OrganizationTag") (h2 : k0 ≠ "BusinessUnitTag")
    (h3 : k0 ≠ "EnvironmentTag") :
    k0 ∈ out.map Prod.fst ↔ k0 ∈ params.map Prod.fst := by
  rw [tagParamsBlock] at h
  cases hhas : jhasKey config "tags" with
  | error e => simp only [hhas] at h; cases h
  | ok b =>
    cases b with
    | false =>
      simp only [hhas, Except.ok.injEq] at h
      subst h
      rfl
    | true =>
      simp only [hhas] at h
      cases hidx : jindex config "tags" with
      | error e => simp only [hidx] at h; cases h
      | ok tags =>
        simp only [hidx] at h
        cases hs1 : tagParamStep tags "organization" "OrganizationTag" params with
        | error e => simp only [hs1] at h; cases h
        | ok p1 =>
          simp only [hs1] at h
          cases hs2 : tagParamStep tags "business_unit" "BusinessUnitTag" p1 with
          | error e => simp only [hs2] at h; cases h
          | ok p2 =>
            simp only [hs2] at h
            rw [tagParamStep_mem_iff tags "environment" "EnvironmentTag" p2 out k0 h h3,
              tagParamStep_mem_iff tags "business_unit" "BusinessUnitTag" p1 p2 k0 hs2 h2,
              tagParamStep_mem_iff tags "organization" "OrganizationTag" params p1 k0 hs1 h1]

theorem messagingParamStep_mem_iff (messaging : J) (outerKey innerKey paramKey : String)
    (params out : List (String × J)) (k0 : String)
    (h : messagingParamStep messaging outerKey innerKey paramKey params = .ok out)
    (hk : k0 ≠ paramKey) :
    k0 ∈ out.map Prod.fst ↔ k0 ∈ params.map Prod.fst := by
  rw [messagingParamStep] at h
  cases hhas : jhasKey messaging outerKey with
  | error e => simp only [hhas] at h; cases h
  | ok b =>
    cases b with
    | false =>
      simp only [hhas, Except.ok.injEq] at h
      subst h
      rfl
    | true =>
      simp only [hhas] at h
      cases hidx : jindex messaging outerKey with
      | error e => simp only [hidx] at h; cases h
      | ok inner =>
        simp only [hidx] at h
        cases hhas2 : jhasKey inner innerKey with
        | error e => simp only [hhas2] at h; cases h
        | ok b2 =>
          cases b2 with
          | false =>
            simp only [hhas2, Except.ok.injEq] at h
            subst h
            rfl
          | true =>
            simp only [hhas2] at h
            cases hidx2 : jindex inner innerKey with
            | error e => simp only [hidx2] at h; cases h
            | ok v =>
              simp only [hidx2, Except.ok.injEq] at h
              subst h
              simp [hk]

theorem messagingParamsBlock_mem_iff (solutionName : String) (config : J)
    (params out : List (String × J)) (k0 : String)
    (h : messagingParamsBlock solutionName config params = .ok out)
    (h1 : k0 ≠ "EmailDestination") (h2 : k0 ≠ "SmsDestination")
    (h3 : k0 ≠ "SmsCountry") (h4 : k0 ≠ "SmsOriginatorId") :
    k0 ∈ out.map Prod.fst ↔ k0 ∈ params.map Prod.fst := by
  rw [messagingParamsBlock] at h
  cases hhas : jhasKey config "messaging" with
  | error e => simp only [hhas] at h; cases h
  | ok b =>
    cases b with
    | false =>
      simp only [hhas, Except.ok.injEq] at h
      subst h
      rfl
    | true =>
      simp only [hhas] at h
      by_cases hname : solutionName = "messaging"
      · rw [if_pos hname] at h
        cases hidx : jindex config "messaging" with
        | error e => simp only [hidx] at h; cases h
        | ok messaging =>
          simp only [hidx] at h
          cases hs1 : messagingParamStep messaging "email" "destination"
              "EmailDestination" params with
          | error e => simp only [hs1] at h; cases h
          | ok p1 =>
            simp only [hs1] at h
            cases hs2 : messagingParamStep messaging "sms" "destination"
                "SmsDestination" p1 with
            | error e => simp only [hs2] at h; cases h
            | ok p2 =>
              simp only [hs2] at h
              cases hs3 : messagingParamStep messaging "sms" "country"
                  "SmsCountry" p2 with
              | error e => simp only [hs3] at h; cases h
              | ok p3 =>
                simp only [hs3] at h
                rw [messagingParamStep_mem_iff messaging "sms" "originator_id"
                    "SmsOriginatorId" p3 out k0 h h4,
                  messagingParamStep_mem_iff messaging "sms" "country"
                    "SmsCountry" p2 p3 k0 hs3 h3,
                  messagingParamStep_mem_iff messaging "sms" "destination"
                    "SmsDestination" p1 p2 k0 hs2 h2,
                  messagingParamStep_mem_iff messaging "email" "destination"
                    "EmailDestination" params p1 k0 hs1 h1]
      · rw [if_neg hname] at h
        simp only [Except.ok.injEq] at h
        subst h
        rfl

theorem jlookup_isSome_iff (fs : List (String × J)) (k : String) :
    (jlookup fs k).isSome = true ↔ k ∈ fs.map Prod.fst := by
  induction fs with
  | nil => simp [jlookup]
  | cons hd tl ih =>
    by_cases h : hd.1 = k
    · subst h
      simp [jlookup]
    · have h' : ¬ k = hd.1 := fun hh => h hh.symm
      simp [jlookup, h, h', ih]

/-- C2 (amended): a dry run performs no mutating AWS call (nothing before
the dry-run return issues one), and — provided the solution's configured
parameters do not themselves contain the key `AwsRegion` — the returned
parameter list carries an `AwsRegion` entry exactly when the
`awsRegionAdded` check fires, which on a well-formed parsed template (a
dict whose `Parameters` entry is a dict) means: the template path ends in
`.yaml`/`.yml`/`.json` and the `Parameters` dict contains the key
`AwsRegion`. -/
theorem C2_dry_run_parameters (solutionName stackName region templatePath : String)
    (cfs sfs solfs prms : List (String × J)) (env : DeployEnv)
    (hsols : jlookup cfs "solutions" = some (J.obj sfs))
    (hsol : jlookup sfs solutionName = some (J.obj solfs))
    (htp : jlookup solfs "template_path" = some (J.s templatePath))
    (hpne : templatePath ≠ "")
    (hex : env.templateExists = true)
    (hparams : solutionParams (J.obj solfs) = .ok prms)
    (hAws : "AwsRegion" ∉ prms.map Prod.fst) :
    (deploy_cloudformation_template_dry_run solutionName stackName region
        (J.obj cfs) env).2 = []
    ∧ (∀ ps, (deploy_cloudformation_template_dry_run solutionName stackName region
          (J.obj cfs) env).1 = .dryRunRes ps →
        ("AwsRegion" ∈ ps.map Prod.fst
          ↔ awsRegionAdded templatePath env.parsedTemplate = true))
    ∧ (∀ tfs pfs, env.parsedTemplate = some (J.obj tfs) →
        jlookup tfs "Parameters" = some (J.obj pfs) →
        (awsRegionAdded templatePath env.parsedTemplate = true
          ↔ ((endsWithStr templatePath ".yaml" || endsWithStr templatePath ".yml"
              || endsWithStr templatePath ".json") = true
            ∧ "AwsRegion" ∈ pfs.map Prod.fst)))
    ∧ (env.parsedTemplate = none → awsRegionAdded templatePath env.parsedTemplate = false) := by
  refine ⟨rfl, ?_, ?_, ?_⟩
  · intro ps hps
    have hE : deployDryRunE solutionName region (J.obj cfs) env
        = (match tagParamsBlock (J.obj cfs)
            (if awsRegionAdded templatePath env.parsedTemplate
              then prms ++ [("AwsRegion", J.s region)] else prms) with
          | .error e => .error e
          | .ok params2 =>
            match messagingParamsBlock solutionName (J.obj cfs) params2 with
            | .error e => .error e
            | .ok params3 => .ok (.dryRunRes params3)) := by
      rw [deployDryRunE]
      simp only [jgetD, jget, hsols, jhasKey, hsol, Option.isSome_some, jindex,
        hparams, htp, Option.getD_some]
      rw [if_neg (by simp [hpne, hex])]
    rw [deploy_cloudformation_template_dry_run] at hps
    simp only [hE] at hps
    cases htb : tagParamsBlock (J.obj cfs)
        (if awsRegionAdded templatePath env.parsedTemplate
          then prms ++ [("AwsRegion", J.s region)] else prms) with
    | error e => simp only [htb] at hps; cases hps
    | ok p2 =>
      simp only [htb] at hps
      cases hmb : messagingParamsBlock solutionName (J.obj cfs) p2 with
      | error e => simp only [hmb] at hps; cases hps
      | ok p3 =>
        simp only [hmb] at hps
        simp only [DeployResult.dryRunRes.injEq] at hps
        subst hps
        rw [messagingParamsBlock_mem_iff solutionName (J.obj cfs) p2 p3 "AwsRegion" hmb
          (by decide) (by decide) (by decide) (by decide)]
        rw [tagParamsBlock_mem_iff (J.obj cfs) _ p2 "AwsRegion" htb
          (by decide) (by decide) (by decide)]
        cases hadd : awsRegionAdded templatePath env.parsedTemplate with
        | true => simp
        | false => simp [hAws]
  · intro tfs pfs htfs hpfs
    rw [awsRegionAdded.eq_def, htfs]
    by_cases hext : (endsWithStr templatePath ".yaml" || endsWithStr templatePath ".yml"
        || endsWithStr templatePath ".json") = true
    · rw [if_pos hext]
      simp only [hext, true_and]
      by_cases htr : jTruthy (J.obj tfs) = true
      · rw [if_pos htr]
        have h1 : jhasKey (J.obj tfs) "Parameters" = .ok true := by
          simp [jhasKey, hpfs]
        have h2 : jindex (J.obj tfs) "Parameters" = .ok (J.obj pfs) := by
          simp [jindex, hpfs]
        have h3 : jhasKey (J.obj pfs) "AwsRegion"
            = .ok (jlookup pfs "AwsRegion").isSome := rfl
        simp only [h1, h2, h3]
        exact jlookup_isSome_iff pfs "AwsRegion"
      · rw [if_neg htr]
        exfalso
        apply htr
        simp only [jTruthy]
        cases hfs : tfs with
        | nil => rw [hfs] at hpfs; cases hpfs
        | cons x xs => simp
    · rw [if_neg hext]
      simp [hext]
  · intro hnone
    rw [awsRegionAdded.eq_def, hnone]
    by_cases hext : (endsWithStr templatePath ".yaml" || endsWithStr templatePath ".yml"
        || endsWithStr templatePath ".json") = true
    · rw [if_pos hext]
    · rw [if_neg hext]

/-- C2 witness: a concrete static-website dry run performs no AWS call
and includes `AwsRegion` exactly because the `.yaml` template declares
it. -/
theorem C2_dry_run_parameters_witness :
    (deploy_cloudformation_template_dry_run "static_website" "stack" "us-east-1"
        (J.obj [ ("solutions", J.obj [("static_website", J.obj
            [ ("template_path", J.s "iac/static_website/cf.yaml")
            , ("parameters", J.obj [("DomainName", J.s "example.com")]) ])])
          , ("tags", J.obj [("organization", J.s "acme")]) ])
        { templateExists := true
        , parsedTemplate := some (J.obj [("Parameters", J.obj
            [("AwsRegion", J.obj []), ("DomainName", J.obj [])])]) }).2 = []
    ∧ ("AwsRegion" ∈ ([ ("DomainName", J.s "example.com")
        , ("AwsRegion", J.s "us-east-1")
        , ("OrganizationTag", J.s "acme") ] : List (String × J)).map Prod.fst
      ↔ awsRegionAdded "iac/static_website/cf.yaml"
          (some (J.obj [("Parameters", J.obj
            [("AwsRegion", J.obj []), ("DomainName", J.obj [])])])) = true) := by
  have h := C2_dry_run_parameters "static_website" "stack" "us-east-1"
    "iac/static_website/cf.yaml"
    [ ("solutions", J.obj [("static_website", J.obj
        [ ("template_path", J.s "iac/static_website/cf.yaml")
        , ("parameters", J.obj [("DomainName", J.s "example.com")]) ])])
      , ("tags", J.obj [("organization", J.s "acme")]) ]
    [("static_website", J.obj
        [ ("template_path", J.s "iac/static_website/cf.yaml")
        , ("parameters", J.obj [("DomainName", J.s "example.com")]) ])]
    [ ("template_path", J.s "iac/static_website/cf.yaml")
    , ("parameters", J.obj [("DomainName", J.s "example.com")]) ]
    [("DomainName", J.s "example.com")]
    { templateExists := true
    , parsedTemplate := some (J.obj [("Parameters", J.obj
        [("AwsRegion", J.obj []), ("DomainName", J.obj [])])]) }
    rfl rfl rfl (by decide) rfl rfl (by decide)
  exact ⟨h.1, h.2.1
    [ ("DomainName", J.s "example.com")
    , ("AwsRegion", J.s "us-east-1")
    , ("OrganizationTag", J.s "acme") ] rfl⟩

end Rubble
